import Mathlib

/-!
Verification development for the chai.im end-to-end encrypted messaging
repository.  The Rust sources under `crates/chai-crypto`, `crates/chai-protocol`
and `crates/chai-server` are shallowly embedded: pure functions become Lean
functions, `&mut self` methods become explicit state-passing functions that
return both the `Result` and the post-state, and machine integers become `Nat`
with explicit `u32::MAX` checks where the source checks overflow.

External cryptographic primitives (AES-256-GCM from the `aes_gcm` crate,
HMAC-SHA256 / HKDF-SHA256 from `hmac`/`hkdf`, X25519 from `x25519_dalek`,
Ed25519 from `ed25519_dalek`) are not part of this repository; they are
modelled ideally:
  * AES-GCM keeps the exact `nonce(12) || ciphertext || tag(16)` byte layout of
    `cipher.rs`; the tag is an ideal MAC, i.e. an injective function of
    (key, nonce, associated data, body), and decryption succeeds exactly when
    the recomputed tag matches.
  * HMAC/HKDF chain-key and root-key derivations are ideal pseudorandom
    functions, represented injectively by symbolic key material (`List Nat`).
  * X25519 is an ideal commutative group: a key pair is its secret exponent,
    the public key is the exponent itself, and `diffie_hellman x y = x * y`,
    which makes `dh(a, pub b) = dh(b, pub a)` hold as in the real group.
Random values drawn inside the Rust functions (`thread_rng`, `OsRng`) are
passed as explicit parameters.
-/

/-- `CryptoError` from `chai-crypto/src/error.rs` (all variants; the enum has
no `unknown_prekey_id` variant). String payloads that only carry display text
are dropped. -/
inductive CryptoError where
  | invalidKeyLength (expected actual : Nat)
  | invalidSignature
  | decryptionFailed
  | keyDerivationFailed
  | sessionNotInitialized
  | sessionNotFound (peer : String)
  | counterOverflow
  | duplicateMessage
  | messageTooOld
  | serializationError
  | deserializationError
  | rngError
deriving DecidableEq

namespace Cipher

/-- Injective encoding of a byte list into a single `Nat`, used to build the
ideal GCM authentication tag. -/
def encodeList : List Nat → Nat
  | [] => 0
  | a :: l => Nat.pair a (encodeList l) + 1

theorem encodeList_injective : ∀ {l₁ l₂ : List Nat}, encodeList l₁ = encodeList l₂ → l₁ = l₂
  | [], [], _ => rfl
  | [], _ :: _, h => by simp [encodeList] at h
  | _ :: _, [], h => by simp [encodeList] at h
  | a :: l₁, b :: l₂, h => by
    simp only [encodeList, Nat.add_right_cancel_iff, Nat.pair_eq_pair] at h
    exact h.1 ▸ congrArg (a :: ·) (encodeList_injective h.2)

/-- Modelled from the spec: the AES-256-GCM authentication tag (16 bytes) of
the `aes_gcm` crate, idealized as an injective MAC over key, nonce, associated
data and ciphertext body.  The first entry carries the injective encoding; the
remaining 15 entries pad the tag to its real 16-byte length. -/
def gcmTag (key : Nat) (nonce ad body : List Nat) : List Nat :=
  (Nat.pair key (Nat.pair (encodeList nonce) (Nat.pair (encodeList ad) (encodeList body))) + 1)
    :: List.replicate 15 0

theorem gcmTag_ad_injective {key : Nat} {nonce ad ad' body : List Nat}
    (h : gcmTag key nonce ad body = gcmTag key nonce ad' body) : ad = ad' := by
  simp only [gcmTag, List.cons.injEq, Nat.add_right_cancel_iff, Nat.pair_eq_pair] at h
  exact encodeList_injective h.1.2.2.1

/-- `encrypt_with_ad` from `cipher.rs`: output is `nonce(12) || body || tag(16)`.
The random nonce drawn from `thread_rng` is an explicit parameter.  In the
ideal model the body equals the plaintext (the model tracks authenticity and
layout, not secrecy), and the underlying seal operation cannot fail. -/
def encrypt_with_ad (key : Nat) (plaintext ad nonce : List Nat) :
    Except CryptoError (List Nat) :=
  .ok (nonce ++ plaintext ++ gcmTag key nonce ad plaintext)

/-- `decrypt_with_ad` from `cipher.rs`: rejects inputs shorter than
`12 + 16` bytes, splits off the nonce and the tag, recomputes the tag and
compares. -/
def decrypt_with_ad (key : Nat) (ciphertext ad : List Nat) :
    Except CryptoError (List Nat) :=
  if ciphertext.length < 12 + 16 then .error .decryptionFailed
  else
    let nonce := ciphertext.take 12
    let rest := ciphertext.drop 12
    let body := rest.take (rest.length - 16)
    let tag := rest.drop (rest.length - 16)
    if tag = gcmTag key nonce ad body then .ok body else .error .decryptionFailed

/-- `encrypt` from `cipher.rs` (no associated data): AES-GCM with empty aad. -/
def encrypt (key : Nat) (plaintext nonce : List Nat) : Except CryptoError (List Nat) :=
  .ok (nonce ++ plaintext ++ gcmTag key nonce [] plaintext)

/-- `decrypt` from `cipher.rs` (no associated data). -/
def decrypt (key : Nat) (ciphertext : List Nat) : Except CryptoError (List Nat) :=
  if ciphertext.length < 12 + 16 then .error .decryptionFailed
  else
    let nonce := ciphertext.take 12
    let rest := ciphertext.drop 12
    let body := rest.take (rest.length - 16)
    let tag := rest.drop (rest.length - 16)
    if tag = gcmTag key nonce [] body then .ok body else .error .decryptionFailed

end Cipher

namespace Cipher

theorem decrypt_with_ad_assembled (key : Nat) (pt ad ad₂ nonce : List Nat)
    (hn : nonce.length = 12) :
    decrypt_with_ad key (nonce ++ pt ++ gcmTag key nonce ad pt) ad₂ =
      if gcmTag key nonce ad pt = gcmTag key nonce ad₂ pt then .ok pt
      else .error .decryptionFailed := by
  have htag : (gcmTag key nonce ad pt).length = 16 := by simp [gcmTag]
  simp only [decrypt_with_ad]
  rw [if_neg (by simp [hn, htag]; omega)]
  rw [List.append_assoc, List.take_left' hn, List.drop_left' hn]
  have h2 : (pt ++ gcmTag key nonce ad pt).length - 16 = pt.length := by simp [htag]
  rw [h2, List.take_left, List.drop_left]

end Cipher

/-- Claim C4: for every 32-byte key, plaintext, associated data `ad` and
12-byte nonce, decrypting `encrypt_with_ad key pt ad` with the same `ad`
returns `pt`, and decrypting it with any `ad' ≠ ad` returns the
`decryption_failed` error. -/
theorem c4_encrypt_decrypt_roundtrip (key : Nat) (pt ad ad' nonce : List Nat)
    (hn : nonce.length = 12) (ct : List Nat)
    (henc : Cipher.encrypt_with_ad key pt ad nonce = .ok ct) :
    Cipher.decrypt_with_ad key ct ad = .ok pt ∧
      (ad' ≠ ad → Cipher.decrypt_with_ad key ct ad' = .error .decryptionFailed) := by
  have hct : ct = nonce ++ pt ++ Cipher.gcmTag key nonce ad pt := by
    have := henc
    simp only [Cipher.encrypt_with_ad, Except.ok.injEq] at this
    exact this.symm
  subst hct
  refine ⟨?_, fun hne => ?_⟩
  · rw [Cipher.decrypt_with_ad_assembled key pt ad ad nonce hn, if_pos rfl]
  · rw [Cipher.decrypt_with_ad_assembled key pt ad ad' nonce hn,
        if_neg (fun h => hne (Cipher.gcmTag_ad_injective h).symm)]

theorem c4_encrypt_decrypt_roundtrip_witness :
    Cipher.decrypt_with_ad 0
        (List.replicate 12 0 ++ [] ++ Cipher.gcmTag 0 (List.replicate 12 0) [] []) [] = .ok [] ∧
      (([1] : List Nat) ≠ [] → Cipher.decrypt_with_ad 0
        (List.replicate 12 0 ++ [] ++ Cipher.gcmTag 0 (List.replicate 12 0) [] []) [1] =
          .error .decryptionFailed) :=
  c4_encrypt_decrypt_roundtrip 0 [] [] [1] (List.replicate 12 0) (by decide) _ rfl

/-- Claim C10: for every key and every input shorter than 28 bytes (12-byte
nonce plus 16-byte tag), both `decrypt` and `decrypt_with_ad` return the
`decryption_failed` error.  Both embedded functions are total Lean functions
over all input lengths, so no out-of-bounds access is possible. -/
theorem c10_short_input_rejected (key : Nat) (input ad : List Nat)
    (h : input.length < 28) :
    Cipher.decrypt key input = .error .decryptionFailed ∧
      Cipher.decrypt_with_ad key input ad = .error .decryptionFailed := by
  refine ⟨?_, ?_⟩
  · simp only [Cipher.decrypt]
    rw [if_pos (by omega)]
  · simp only [Cipher.decrypt_with_ad]
    rw [if_pos (by omega)]

theorem c10_short_input_rejected_witness :
    Cipher.decrypt 0 [1, 2, 3] = .error .decryptionFailed ∧
      Cipher.decrypt_with_ad 0 [1, 2, 3] [7] = .error .decryptionFailed :=
  c10_short_input_rejected 0 [1, 2, 3] [7] (by decide)

namespace Ratchet

/-- Symbolic 32-byte key material (chain keys, message keys, root keys):
HMAC/HKDF derivations of the `hmac`/`hkdf` crates are modelled as ideal
injective functions by prepending constructor tags. -/
abbrev KeyMat := List Nat

/-- `u32::MAX`, the bound at which `checked_add(1)` fails in `ratchet.rs`. -/
def UINT32_MAX : Nat := 4294967295

/-- `MAX_SKIP` from `ratchet.rs` (the source uses 1000, not the spec's
suggested 1024). -/
def MAX_SKIP : Nat := 1000

/-- `ChainKey::advance`: next chain key `HMAC(ck, 0x02)` and message key
`HMAC(ck, 0x01)`, idealized as tagged symbolic derivations. -/
def chainAdvance (ck : KeyMat) : KeyMat × KeyMat := (2 :: ck, 1 :: ck)

/-- `RootKey::ratchet`: HKDF-SHA256 with salt `rk` and ikm `dh`, split into a
new root key and a chain key; idealized as tagged symbolic derivations. -/
def rootRatchet (rk : KeyMat) (dhOutput : Nat) : KeyMat × KeyMat :=
  (0 :: dhOutput :: rk, 1 :: dhOutput :: rk)

/-- X25519 of `x25519_dalek`, as an ideal commutative group: a secret key is
its exponent, the public key equals the exponent, and the shared secret of
`secret` with a public key is their product. -/
def dhShared (secret pub : Nat) : Nat := secret * pub

/-- `DHKeyPair::public_key().to_bytes()` in the exponent model. -/
def dhPub (secret : Nat) : Nat := secret

/-- `MessageHeader` from `ratchet.rs`. -/
structure MessageHeader where
  dhPublic : Nat
  previousCounter : Nat
  messageNumber : Nat
deriving DecidableEq

/-- `MessageHeader::to_bytes` (bincode serialization), modelled as the
injective list of the three fields; used only as AEAD associated data. -/
def MessageHeader.toBytes (h : MessageHeader) : List Nat :=
  [h.dhPublic, h.previousCounter, h.messageNumber]

/-- A ciphertext as handled by the ratchet: either opaque attacker-supplied
bytes, or the sealed output of the ideal AEAD recording the key, nonce,
plaintext and associated data it was produced with. -/
inductive Ct where
  | raw (bytes : List Nat)
  | sealed (key : KeyMat) (nonce : Nat) (plaintext : List Nat) (ad : List Nat)
deriving DecidableEq

/-- `cipher::encrypt_with_ad` as used by the ratchet (ideal AEAD seal; the
random nonce is an explicit parameter). -/
def aeadEncrypt (key : KeyMat) (nonce : Nat) (pt ad : List Nat) : Ct :=
  .sealed key nonce pt ad

/-- `cipher::decrypt_with_ad` as used by the ratchet: a ciphertext
authenticates exactly under the key and associated data it was sealed with. -/
def aeadDecrypt (key : KeyMat) (ct : Ct) (ad : List Nat) :
    Except CryptoError (List Nat) :=
  match ct with
  | .raw _ => .error .decryptionFailed
  | .sealed k _ pt a => if k = key ∧ a = ad then .ok pt else .error .decryptionFailed

/-- `DoubleRatchet` state from `ratchet.rs`.  The skipped-key `HashMap` is an
association list with distinct keys; its unspecified iteration order is
resolved to list order. -/
structure State where
  dhSelf : Option Nat
  dhSelfBytes : Option Nat
  dhRemote : Option Nat
  rootKey : KeyMat
  chainKeySend : Option KeyMat
  chainKeyRecv : Option KeyMat
  sendCounter : Nat
  recvCounter : Nat
  previousCounter : Nat
  skippedKeys : List ((Nat × Nat) × KeyMat)
deriving DecidableEq

/-- `HashMap::remove` on the skipped-key map (drops the entry if present). -/
def skRemove (m : List ((Nat × Nat) × KeyMat)) (k : Nat × Nat) :
    List ((Nat × Nat) × KeyMat) :=
  m.eraseP (fun e => decide (e.1 = k))

/-- Lookup on the skipped-key map. -/
def skLookup (m : List ((Nat × Nat) × KeyMat)) (k : Nat × Nat) : Option KeyMat :=
  (m.find? (fun e => decide (e.1 = k))).map (·.2)

/-- `HashMap::insert` on the skipped-key map (replaces an existing entry). -/
def skInsert (m : List ((Nat × Nat) × KeyMat)) (k : Nat × Nat) (v : KeyMat) :
    List ((Nat × Nat) × KeyMat) :=
  (k, v) :: skRemove m k

/-- `DoubleRatchet::init_sender`: performs the first root ratchet against the
peer's signed prekey.  The fresh DH pair from `OsRng` is a parameter. -/
def initSender (sharedSecret : KeyMat) (theirDhPublic : Nat) (freshSelf : Nat) :
    State :=
  let dhOut := dhShared freshSelf theirDhPublic
  let rc := rootRatchet sharedSecret dhOut
  { dhSelf := some freshSelf
    dhSelfBytes := some freshSelf
    dhRemote := some theirDhPublic
    rootKey := rc.1
    chainKeySend := some rc.2
    chainKeyRecv := none
    sendCounter := 0
    recvCounter := 0
    previousCounter := 0
    skippedKeys := [] }

/-- `DoubleRatchet::init_receiver`. -/
def initReceiver (sharedSecret : KeyMat) (ourDh : Nat) : State :=
  { dhSelf := some ourDh
    dhSelfBytes := some ourDh
    dhRemote := none
    rootKey := sharedSecret
    chainKeySend := none
    chainKeyRecv := none
    sendCounter := 0
    recvCounter := 0
    previousCounter := 0
    skippedKeys := [] }

/-- `DoubleRatchet::encrypt`.  Mirrors the source's mutation order: the send
chain is advanced before the counter-overflow check, so on `counter_overflow`
the advanced chain persists. -/
def encrypt (st : State) (plaintext : List Nat) (nonce : Nat) :
    Except CryptoError (MessageHeader × Ct) × State :=
  match st.dhSelf with
  | none => (.error .sessionNotInitialized, st)
  | some ds =>
    match st.chainKeySend with
    | none => (.error .sessionNotInitialized, st)
    | some ck =>
      let a := chainAdvance ck
      let st1 := { st with chainKeySend := some a.1 }
      let header : MessageHeader :=
        ⟨dhPub ds, st1.previousCounter, st1.sendCounter⟩
      let ct := aeadEncrypt a.2 nonce plaintext header.toBytes
      if st1.sendCounter = UINT32_MAX then (.error .counterOverflow, st1)
      else (.ok (header, ct), { st1 with sendCounter := st1.sendCounter + 1 })

/-- The `while self.recv_counter < until` loop of
`DoubleRatchet::skip_message_keys`, with explicit fuel (the loop advances
`recv_counter` by one each iteration, so fuel `until - recv_counter`
suffices).  Mirrors the source order: insert the skipped key, then the
`checked_add` on `recv_counter`, then the eviction when the map exceeds
`MAX_SKIP` (the `HashMap`'s arbitrary first key is resolved to the list
head). -/
def skipLoop (untl dhRemote : Nat) : Nat → State → Except CryptoError Unit × State
  | 0, st => (.ok (), st)
  | fuel + 1, st =>
    if st.recvCounter < untl then
      match st.chainKeyRecv with
      | none => (.error .sessionNotInitialized, st)
      | some ck =>
        let a := chainAdvance ck
        let st1 := { st with
          chainKeyRecv := some a.1
          skippedKeys := skInsert st.skippedKeys (dhRemote, st.recvCounter) a.2 }
        if st1.recvCounter = UINT32_MAX then (.error .counterOverflow, st1)
        else
          let st2 := { st1 with recvCounter := st1.recvCounter + 1 }
          let st3 :=
            if st2.skippedKeys.length > MAX_SKIP then
              { st2 with skippedKeys := st2.skippedKeys.drop 1 }
            else st2
          skipLoop untl dhRemote fuel st3
    else (.ok (), st)

/-- `DoubleRatchet::skip_message_keys`. -/
def skipMessageKeys (st : State) (untl : Nat) : Except CryptoError Unit × State :=
  match st.chainKeyRecv with
  | none => (.ok (), st)
  | some _ =>
    if untl - st.recvCounter > MAX_SKIP then (.error .messageTooOld, st)
    else
      match st.dhRemote with
      | none => (.error .sessionNotInitialized, st)
      | some dr => skipLoop untl dr (untl - st.recvCounter) st

/-- `DoubleRatchet::dh_ratchet`.  Counters are reset and `dh_remote` replaced
before anything can fail, mirroring the source.  The fresh DH pair from
`DHKeyPair::generate` is a parameter. -/
def dhRatchet (st : State) (theirNewPublic : Nat) (freshSelf : Nat) :
    Except CryptoError Unit × State :=
  let st1 := { st with
    previousCounter := st.sendCounter
    sendCounter := 0
    recvCounter := 0
    dhRemote := some theirNewPublic }
  match st1.dhSelf with
  | none => (.error .sessionNotInitialized, st1)
  | some ds =>
    let rc := rootRatchet st1.rootKey (dhShared ds theirNewPublic)
    let st2 := { st1 with rootKey := rc.1, chainKeyRecv := some rc.2 }
    let rc2 := rootRatchet st2.rootKey (dhShared freshSelf theirNewPublic)
    (.ok (), { st2 with
      rootKey := rc2.1
      chainKeySend := some rc2.2
      dhSelfBytes := some freshSelf
      dhSelf := some freshSelf })

/-- `DoubleRatchet::decrypt`.  All mutations happen on `self` exactly where
the source performs them, so states reached on error paths persist. -/
def decrypt (st : State) (header : MessageHeader) (ct : Ct) (freshSelf : Nat) :
    Except CryptoError (List Nat) × State :=
  match skLookup st.skippedKeys (header.dhPublic, header.messageNumber) with
  | some mk =>
    let st1 := { st with
      skippedKeys := skRemove st.skippedKeys (header.dhPublic, header.messageNumber) }
    (aeadDecrypt mk ct header.toBytes, st1)
  | none =>
    let step1 : Except CryptoError Unit × State :=
      if st.dhRemote ≠ some header.dhPublic then
        match skipMessageKeys st header.previousCounter with
        | (.error e, st1) => (.error e, st1)
        | (.ok _, st1) => dhRatchet st1 header.dhPublic freshSelf
      else (.ok (), st)
    match step1 with
    | (.error e, st1) => (.error e, st1)
    | (.ok _, st1) =>
      match skipMessageKeys st1 header.messageNumber with
      | (.error e, st2) => (.error e, st2)
      | (.ok _, st2) =>
        match st2.chainKeyRecv with
        | none => (.error .sessionNotInitialized, st2)
        | some ck =>
          let a := chainAdvance ck
          let st3 := { st2 with chainKeyRecv := some a.1 }
          if header.messageNumber = UINT32_MAX then (.error .counterOverflow, st3)
          else
            let st4 := { st3 with recvCounter := header.messageNumber + 1 }
            (aeadDecrypt a.2 ct header.toBytes, st4)

end Ratchet

deriving instance DecidableEq for Except

namespace Ratchet

/-- A concrete receiver-side state used to exercise `decrypt` on a failing
message that triggers a DH-ratchet step. -/
def c2State : State :=
  { dhSelf := some 5
    dhSelfBytes := some 5
    dhRemote := some 7
    rootKey := [3]
    chainKeySend := some [4]
    chainKeyRecv := some [6]
    sendCounter := 0
    recvCounter := 0
    previousCounter := 0
    skippedKeys := [] }

/-- A header whose DH public key (19) differs from `c2State`'s remote key (7),
forcing a DH ratchet before AEAD decryption. -/
def c2Header : MessageHeader := ⟨19, 0, 0⟩

end Ratchet

/-- Claim C2 (code bug): `DoubleRatchet::decrypt` performs the DH-ratchet
step and the chain advance on `self` before AEAD authentication, so a
`decryption_failed` result does not leave the session state unchanged.  At the
concrete state `c2State` with a forged ciphertext, decrypt fails with
`decryption_failed` yet the post-state differs from the pre-state (the root
key, both chains, `dh_self`, `dh_remote` and `recv_counter` were all
rotated). -/
theorem c2_decrypt_failure_mutates_state :
    (Ratchet.decrypt Ratchet.c2State Ratchet.c2Header (.raw []) 23).1 =
        .error .decryptionFailed ∧
      (Ratchet.decrypt Ratchet.c2State Ratchet.c2Header (.raw []) 23).2 ≠
        Ratchet.c2State := by
  decide

namespace Ratchet

/-- A receiver state five messages into its receive chain: the chain key
`[2, 2, 9]` is the index-5 descendant of the index-3 chain key `[9]`. -/
def c6State : State :=
  { dhSelf := some 5
    dhSelfBytes := some 5
    dhRemote := some 7
    rootKey := [3]
    chainKeySend := some [4]
    chainKeyRecv := some [2, 2, 9]
    sendCounter := 0
    recvCounter := 5
    previousCounter := 0
    skippedKeys := [] }

/-- The header of old message number 3 on the current chain (DH key matches
`dh_remote`, counter below `recv_counter`). -/
def c6Header : MessageHeader := ⟨7, 0, 3⟩

/-- A replay of message 3: sealed under the message key `[1, 9]` derived from
the index-3 chain key `[9]`, with message 3's header as associated data. -/
def c6Replay : Ct := .sealed [1, 9] 0 [42] [7, 0, 3]

end Ratchet

/-- Claim C6 (code bug): a message whose header DH key equals `dh_remote` and
whose counter is below `recv_counter`, with no stored skipped key, is not
reported as `duplicate_or_stale_message`.  The code falls through, derives a
fresh message key from the current chain, fails AEAD authentication with
`decryption_failed`, and on top of that mutates the state: the receive chain
is advanced and `recv_counter` is lowered from 5 to 4. -/
theorem c6_stale_message_not_flagged_duplicate :
    (Ratchet.decrypt Ratchet.c6State Ratchet.c6Header Ratchet.c6Replay 23).1 =
        .error .decryptionFailed ∧
      (Ratchet.decrypt Ratchet.c6State Ratchet.c6Header Ratchet.c6Replay 23).1 ≠
        .error .duplicateMessage ∧
      (Ratchet.decrypt Ratchet.c6State Ratchet.c6Header Ratchet.c6Replay 23).2.recvCounter
        = 4 ∧
      (Ratchet.decrypt Ratchet.c6State Ratchet.c6Header Ratchet.c6Replay 23).2 ≠
        Ratchet.c6State := by
  decide

namespace Ratchet

/-- The skipped-key bound maintained by `skip_message_keys`. -/
def sizeOk (st : State) : Prop := st.skippedKeys.length ≤ MAX_SKIP

theorem skRemove_length_le (m : List ((Nat × Nat) × KeyMat)) (k : Nat × Nat) :
    (skRemove m k).length ≤ m.length := by
  unfold skRemove
  induction m with
  | nil => simp
  | cons e m ih =>
    rw [List.eraseP_cons]
    by_cases h : e.1 = k
    · simp [h]
    · rw [decide_eq_false h, cond_false]
      simp only [List.length_cons]
      omega

theorem skInsert_length_le (m : List ((Nat × Nat) × KeyMat)) (k : Nat × Nat)
    (v : KeyMat) : (skInsert m k v).length ≤ m.length + 1 := by
  simpa [skInsert] using Nat.succ_le_succ (skRemove_length_le m k)

theorem skipLoop_sizeOk (untl dr : Nat) (hu : untl ≤ UINT32_MAX) :
    ∀ fuel st, sizeOk st → sizeOk (skipLoop untl dr fuel st).2 := by
  intro fuel
  induction fuel with
  | zero => intro st h; exact h
  | succ f ih =>
    intro st h
    simp only [skipLoop]
    by_cases hlt : st.recvCounter < untl
    · rw [if_pos hlt]
      cases hck : st.chainKeyRecv with
      | none => exact h
      | some ck =>
        dsimp only
        rw [if_neg (by omega)]
        apply ih
        have hins := skInsert_length_le st.skippedKeys (dr, st.recvCounter)
          (chainAdvance ck).2
        by_cases hbig :
            (skInsert st.skippedKeys (dr, st.recvCounter) (chainAdvance ck).2).length
              > MAX_SKIP
        · rw [if_pos hbig]
          simp only [sizeOk, List.length_drop]
          unfold sizeOk at h
          omega
        · rw [if_neg hbig]
          simpa [sizeOk] using Nat.le_of_not_lt hbig
    · rw [if_neg hlt]
      exact h

theorem skipMessageKeys_sizeOk (st : State) (untl : Nat) (hu : untl ≤ UINT32_MAX)
    (h : sizeOk st) : sizeOk (skipMessageKeys st untl).2 := by
  unfold skipMessageKeys
  cases hck : st.chainKeyRecv with
  | none => exact h
  | some ck =>
    dsimp only
    by_cases hold : untl - st.recvCounter > MAX_SKIP
    · rw [if_pos hold]; exact h
    · rw [if_neg hold]
      cases hdr : st.dhRemote with
      | none => exact h
      | some dr => exact skipLoop_sizeOk untl dr hu _ st h

theorem dhRatchet_sizeOk (st : State) (tp fr : Nat) (h : sizeOk st) :
    sizeOk (dhRatchet st tp fr).2 := by
  unfold dhRatchet
  dsimp only
  cases hds : st.dhSelf with
  | none => exact h
  | some ds => exact h

theorem encrypt_sizeOk (st : State) (pt : List Nat) (nonce : Nat)
    (h : sizeOk st) : sizeOk (encrypt st pt nonce).2 := by
  unfold encrypt
  cases hds : st.dhSelf with
  | none => exact h
  | some ds =>
    cases hck : st.chainKeySend with
    | none => exact h
    | some ck =>
      dsimp only
      by_cases hmax : st.sendCounter = UINT32_MAX
      · rw [if_pos hmax]; exact h
      · rw [if_neg hmax]; exact h

theorem decrypt_sizeOk (st : State) (header : MessageHeader) (ct : Ct)
    (fresh : Nat) (hp : header.previousCounter ≤ UINT32_MAX)
    (hm : header.messageNumber ≤ UINT32_MAX) (h : sizeOk st) :
    sizeOk (decrypt st header ct fresh).2 := by
  unfold decrypt
  cases hsk : skLookup st.skippedKeys (header.dhPublic, header.messageNumber) with
  | some mk =>
    dsimp only [sizeOk]
    exact le_trans (skRemove_length_le _ _) h
  | none =>
    dsimp only
    split
    all_goals rename_i st1 heq
    case _ =>
      -- the DH-ratchet phase ended in an error; its post-state keeps the bound
      by_cases hne : st.dhRemote ≠ some header.dhPublic
      · rw [if_pos hne] at heq
        rcases h1 : skipMessageKeys st header.previousCounter with ⟨r1, st1'⟩
        have hst1' : sizeOk st1' := by
          have := skipMessageKeys_sizeOk st header.previousCounter hp h
          rw [h1] at this
          exact this
        rw [h1] at heq
        cases r1 with
        | error e1 =>
          dsimp only at heq
          injection heq with _ h2
          exact h2 ▸ hst1'
        | ok u1 =>
          dsimp only at heq
          have := dhRatchet_sizeOk st1' header.dhPublic fresh hst1'
          rw [heq] at this
          exact this
      · rw [if_neg hne] at heq
        injection heq with _ h2
        exact h2 ▸ h
    case _ =>
      have hst1 : sizeOk st1 := by
        by_cases hne : st.dhRemote ≠ some header.dhPublic
        · rw [if_pos hne] at heq
          rcases h1 : skipMessageKeys st header.previousCounter with ⟨r1, st1'⟩
          have hst1' : sizeOk st1' := by
            have := skipMessageKeys_sizeOk st header.previousCounter hp h
            rw [h1] at this
            exact this
          rw [h1] at heq
          cases r1 with
          | error e1 =>
            dsimp only at heq
            injection heq with h1' h2
            exact absurd h1' (by simp)
          | ok u1 =>
            dsimp only at heq
            have := dhRatchet_sizeOk st1' header.dhPublic fresh hst1'
            rw [heq] at this
            exact this
        · rw [if_neg hne] at heq
          injection heq with _ h2
          exact h2 ▸ h
      rcases h2 : skipMessageKeys st1 header.messageNumber with ⟨r2, st2⟩
      have hst2 : sizeOk st2 := by
        have := skipMessageKeys_sizeOk st1 header.messageNumber hm hst1
        rw [h2] at this
        exact this
      cases r2 with
      | error e2 => exact hst2
      | ok u2 =>
        dsimp only
        cases hck : st2.chainKeyRecv with
        | none => exact hst2
        | some ck =>
          dsimp only
          by_cases hmax : header.messageNumber = UINT32_MAX
          · rw [if_pos hmax]
            exact hst2
          · rw [if_neg hmax]
            exact hst2

/-- One Double Ratchet operation: an `encrypt` call or a `decrypt` call, with
the randomness each call draws carried as data. -/
inductive Op where
  | enc (plaintext : List Nat) (nonce : Nat)
  | dec (header : MessageHeader) (ct : Ct) (freshSelf : Nat)

/-- An operation is well formed when its header counters fit in `u32`, as the
Rust `MessageHeader` type guarantees. -/
def wfOp : Op → Bool
  | .enc _ _ => true
  | .dec h _ _ =>
    decide (h.previousCounter ≤ UINT32_MAX) && decide (h.messageNumber ≤ UINT32_MAX)

/-- Run one operation, keeping the post-state whether it succeeds or fails. -/
def applyOp (st : State) : Op → State
  | .enc pt n => (encrypt st pt n).2
  | .dec h ct f => (decrypt st h ct f).2

/-- Run a sequence of operations from an initial state. -/
def runOps (st : State) (ops : List Op) : State := ops.foldl applyOp st

theorem applyOp_sizeOk (st : State) (op : Op) (hw : wfOp op = true)
    (h : sizeOk st) : sizeOk (applyOp st op) := by
  cases op with
  | enc pt n => exact encrypt_sizeOk st pt n h
  | dec hd ct f =>
    simp only [wfOp, Bool.and_eq_true, decide_eq_true_eq] at hw
    exact decrypt_sizeOk st hd ct f hw.1 hw.2 h

theorem runOps_sizeOk (ops : List Op) :
    ∀ st, (∀ op ∈ ops, wfOp op = true) → sizeOk st → sizeOk (runOps st ops) := by
  induction ops with
  | nil => intro st _ h; exact h
  | cons op ops ih =>
    intro st hwf h
    exact ih (applyOp st op)
      (fun o ho => hwf o (List.mem_cons_of_mem op ho))
      (applyOp_sizeOk st op (hwf op (List.mem_cons_self op ops)) h)

end Ratchet

/-- Claim C7: starting from `init_sender` or `init_receiver`, after any
sequence of `encrypt`/`decrypt` calls (successful or failing, each with
arbitrary inputs whose header counters fit in `u32`), the skipped-key map
holds at most `MAX_SKIP` entries.  Every intermediate state of an interleaving
is `runOps` of a prefix, so the bound holds throughout. -/
theorem c7_skipped_keys_bounded (ss : Ratchet.KeyMat)
    (theirPub freshSelf ourDh : Nat) (ops : List Ratchet.Op)
    (hwf : ∀ op ∈ ops, Ratchet.wfOp op = true) :
    Ratchet.sizeOk (Ratchet.runOps (Ratchet.initSender ss theirPub freshSelf) ops) ∧
      Ratchet.sizeOk (Ratchet.runOps (Ratchet.initReceiver ss ourDh) ops) :=
  ⟨Ratchet.runOps_sizeOk ops _ hwf (by simp [Ratchet.sizeOk, Ratchet.initSender, Ratchet.MAX_SKIP]),
   Ratchet.runOps_sizeOk ops _ hwf (by simp [Ratchet.sizeOk, Ratchet.initReceiver, Ratchet.MAX_SKIP])⟩

theorem c7_skipped_keys_bounded_witness :
    Ratchet.sizeOk (Ratchet.runOps (Ratchet.initSender [3] 7 5)
        [.dec ⟨11, 0, 3⟩ (.raw []) 23, .enc [1] 0]) ∧
      Ratchet.sizeOk (Ratchet.runOps (Ratchet.initReceiver [3] 5)
        [.dec ⟨11, 0, 3⟩ (.raw []) 23, .enc [1] 0]) :=
  c7_skipped_keys_bounded [3] 7 5 5 [.dec ⟨11, 0, 3⟩ (.raw []) 23, .enc [1] 0]
    (by decide)

namespace X3dh

/-- X25519 in the ideal exponent model (same as `Ratchet.dhShared`): the
shared secret of a secret exponent with a public key is their product, so
`dh(a, pub b) = dh(b, pub a)` holds exactly as in the real group. -/
def dh (secret pub : Nat) : Nat := secret * pub

/-- Public key bytes of a secret exponent (the exponent itself). -/
def dhPub (secret : Nat) : Nat := secret

/-- Ed25519 signing of `ed25519_dalek`, idealized as an injective function of
the signing key and the message; in this model the verifying key coincides
with the signing key, and the Edwards-to-Montgomery conversion
(`to_montgomery`) is the identity, so a correct implementation's DH1/DH2
would agree on both sides. -/
def sign (sk msg : Nat) : Nat := Nat.pair sk msg

/-- Ed25519 verification: succeeds exactly on the matching signature. -/
def verify (pub msg sig : Nat) : Bool := sig == sign pub msg

/-- `SignedPreKey` from `keys.rs`. -/
structure SignedPreKey where
  id : Nat
  keyPair : Nat
  signature : Nat
deriving DecidableEq

/-- `OneTimePreKey` from `keys.rs`. -/
structure OneTimePreKey where
  id : Nat
  keyPair : Nat
deriving DecidableEq

/-- `PreKeyBundle` from `keys.rs`. -/
structure PreKeyBundle where
  identityKey : Nat
  signedPrekey : Nat
  signedPrekeyId : Nat
  signedPrekeySignature : Nat
  oneTimePrekey : Option Nat
  oneTimePrekeyId : Option Nat
deriving DecidableEq

/-- `PreKeyBundle::verify`. -/
def PreKeyBundle.verify (b : PreKeyBundle) : Except CryptoError Unit :=
  if X3dh.verify b.identityKey b.signedPrekey b.signedPrekeySignature then .ok ()
  else .error .invalidSignature

/-- `X3DHInitialMessage` from `x3dh.rs`. -/
structure X3DHInitialMessage where
  identityKey : Nat
  ephemeralKey : Nat
  signedPrekeyId : Nat
  oneTimePrekeyId : Option Nat
deriving DecidableEq

/-- The HKDF-SHA256 output of `derive_shared_secret`, idealized as a
collision-free KDF and therefore represented by its input key material:
32 bytes of `0xFF` followed by the concatenated DH outputs. -/
abbrev SharedSecret := List Nat

/-- `derive_shared_secret` from `x3dh.rs` (the `hk.expand` failure branch is
unreachable at these output sizes). -/
def deriveSharedSecret (dh1 dh2 dh3 : Nat) (dh4 : Option Nat) :
    Except CryptoError SharedSecret :=
  .ok (List.replicate 32 255 ++ [dh1, dh2, dh3] ++
    (match dh4 with | some d => [d] | none => []))

/-- `X3DHSender::initiate` from `x3dh.rs`.  `eph` is the ephemeral pair drawn
from `OsRng`; `freshDh1` is the key pair that `identity_dh_with` draws from
`OsRng` instead of deriving it from the identity key (the source stub). -/
def initiate (identity : Nat) (bundle : PreKeyBundle) (eph freshDh1 : Nat) :
    Except CryptoError (SharedSecret × X3DHInitialMessage) :=
  match bundle.verify with
  | .error e => .error e
  | .ok _ =>
    let theirIdentityDh := bundle.identityKey
    let dh1 := dh freshDh1 bundle.signedPrekey
    let dh2 := dh eph theirIdentityDh
    let dh3 := dh eph bundle.signedPrekey
    let dh4 := bundle.oneTimePrekey.map (dh eph)
    match deriveSharedSecret dh1 dh2 dh3 dh4 with
    | .error e => .error e
    | .ok ss =>
      .ok (ss, ⟨dhPub identity, dhPub eph, bundle.signedPrekeyId,
        bundle.oneTimePrekeyId⟩)

/-- `X3DHReceiver` state from `x3dh.rs`. -/
structure ReceiverState where
  identity : Nat
  signedPrekey : SignedPreKey
  oneTimePrekeys : List OneTimePreKey
deriving DecidableEq

/-- The one-time-prekey lookup-and-remove of `X3DHReceiver::receive`
(`position` + `Vec::remove`): removes and returns the first entry with the
referenced id; when the id is absent or no id is referenced, the pool is
untouched and no key is returned. -/
def consumeOtp (pool : List OneTimePreKey) (idOpt : Option Nat) :
    Option OneTimePreKey × List OneTimePreKey :=
  match idOpt with
  | none => (none, pool)
  | some i =>
    match pool.findIdx? (fun k => k.id == i) with
    | none => (none, pool)
    | some idx => (pool.get? idx, pool.eraseIdx idx)

/-- `X3DHReceiver::receive` from `x3dh.rs`.  `freshDh2` is the key pair that
the receiver's `identity_dh_with` draws from `OsRng` (the source stub).  Note
that an unknown one-time-prekey id does NOT produce an error: the DH4 term is
silently omitted. -/
def receive (st : ReceiverState) (msg : X3DHInitialMessage) (freshDh2 : Nat) :
    Except CryptoError SharedSecret × ReceiverState :=
  let c := consumeOtp st.oneTimePrekeys msg.oneTimePrekeyId
  let st1 := { st with oneTimePrekeys := c.2 }
  let dh1 := dh st.signedPrekey.keyPair msg.identityKey
  let dh2 := dh freshDh2 msg.ephemeralKey
  let dh3 := dh st.signedPrekey.keyPair msg.ephemeralKey
  let dh4 := c.1.map (fun opk => dh opk.keyPair msg.ephemeralKey)
  (deriveSharedSecret dh1 dh2 dh3 dh4, st1)

end X3dh

namespace X3dh

/-- Bob's prekey bundle built as `PreKeyBundle::new` does, from identity
secret 3, signed-prekey secret 5 (id 1) and one-time-prekey secret 7 (id 1):
the signature is the identity's signature over the signed prekey public. -/
def c1Bundle : PreKeyBundle :=
  { identityKey := dhPub 3
    signedPrekey := dhPub 5
    signedPrekeyId := 1
    signedPrekeySignature := sign 3 (dhPub 5)
    oneTimePrekey := some (dhPub 7)
    oneTimePrekeyId := some 1 }

/-- Bob's receiver state holding the matching secrets. -/
def c1Receiver : ReceiverState :=
  { identity := 3
    signedPrekey := ⟨1, 5, sign 3 (dhPub 5)⟩
    oneTimePrekeys := [⟨1, 7⟩] }

/-- The initial message Alice (identity secret 2, ephemeral 11) produces. -/
def c1Msg : X3DHInitialMessage := ⟨2, 11, 1, some 1⟩

/-- Alice's derived secret with the stub's random DH key 13:
`DH1 = 13 * 5`, `DH2 = 11 * 3`, `DH3 = 11 * 5`, `DH4 = 11 * 7`. -/
def c1SenderSecret : SharedSecret := List.replicate 32 255 ++ [65, 33, 55, 77]

/-- Bob's derived secret with the stub's random DH key 17:
`DH1 = 5 * 2`, `DH2 = 17 * 11`, `DH3 = 5 * 11`, `DH4 = 7 * 11`. -/
def c1ReceiverSecret : SharedSecret := List.replicate 32 255 ++ [10, 187, 55, 77]

end X3dh

/-- Claim C1 (code bug): because `identity_dh_with` generates a fresh random
DH key pair on both sides instead of converting the identity key, the
initiator and the responder feed different DH1/DH2 values into the KDF and so
derive different shared secrets.  Concretely, with identities 2 (Alice) and
3 (Bob), signed prekey 5, one-time prekey 7, ephemeral 11, and random stub
keys 13 (sender side) and 17 (receiver side), `initiate` and `receive` both
succeed but produce distinct secrets. -/
theorem c1_shared_secrets_differ :
    X3dh.initiate 2 X3dh.c1Bundle 11 13 = .ok (X3dh.c1SenderSecret, X3dh.c1Msg) ∧
      (X3dh.receive X3dh.c1Receiver X3dh.c1Msg 17).1 = .ok X3dh.c1ReceiverSecret ∧
      X3dh.c1SenderSecret ≠ X3dh.c1ReceiverSecret := by
  decide

namespace X3dh

/-- A receiver whose pool holds only the one-time prekey with id 1. -/
def c3Receiver : ReceiverState :=
  { identity := 3
    signedPrekey := ⟨1, 5, sign 3 (dhPub 5)⟩
    oneTimePrekeys := [⟨1, 7⟩] }

/-- An initial message referencing one-time-prekey id 2, which the receiver
does not possess. -/
def c3MsgUnknown : X3DHInitialMessage := ⟨2, 11, 1, some 2⟩

/-- An initial message referencing the present one-time-prekey id 1. -/
def c3MsgKnown : X3DHInitialMessage := ⟨2, 11, 1, some 1⟩

end X3dh

/-- Claim C3 (code bug): `X3DHReceiver::receive` does not reject an initial
message whose one-time-prekey id is absent from the pool — there is no
`unknown_prekey_id` error (no such variant exists in `CryptoError`); the
lookup's `and_then` silently yields `None`, DH4 is omitted, and a shared
secret is derived anyway.  Concretely: (i) a message referencing the unknown
id 2 succeeds and leaves the pool unchanged; (ii) after a first processing
consumes id 1, a second processing of the same message also succeeds instead
of failing. -/
theorem c3_unknown_prekey_id_not_rejected :
    ((X3dh.receive X3dh.c3Receiver X3dh.c3MsgUnknown 17).1 =
        .ok (List.replicate 32 255 ++ [10, 187, 55]) ∧
      (X3dh.receive X3dh.c3Receiver X3dh.c3MsgUnknown 17).2 = X3dh.c3Receiver) ∧
      ((X3dh.receive X3dh.c3Receiver X3dh.c3MsgKnown 17).2.oneTimePrekeys = [] ∧
        (X3dh.receive (X3dh.receive X3dh.c3Receiver X3dh.c3MsgKnown 17).2
            X3dh.c3MsgKnown 19).1 =
          .ok (List.replicate 32 255 ++ [10, 209, 55])) := by
  decide

namespace X3dh

/-- `Session` from `session.rs`. -/
structure Session where
  peerId : String
  ratchet : Ratchet.State
  isInitiator : Bool
deriving DecidableEq

/-- `Session::receive` from `session.rs`.  The source moves the whole
one-time-prekey pool into the `X3DHReceiver` with `std::mem::take`, leaving
the caller's vector empty, and never writes the receiver's remaining keys
back; the returned pool is therefore always `[]`. -/
def Session.receive (identity : Nat) (signedPrekey : SignedPreKey)
    (pool : List OneTimePreKey) (peerId : String) (msg : X3DHInitialMessage)
    (freshDh2 : Nat) : Except CryptoError Session × List OneTimePreKey :=
  let recvSt : ReceiverState := ⟨identity, signedPrekey, pool⟩
  let callerPool : List OneTimePreKey := []
  let r := X3dh.receive recvSt msg freshDh2
  match r.1 with
  | .error e => (.error e, callerPool)
  | .ok ss =>
    (.ok ⟨peerId, Ratchet.initReceiver ss signedPrekey.keyPair, false⟩, callerPool)

/-- `SessionManager` from `session.rs`.  The `sessions` `HashMap` is an
association list with distinct keys. -/
structure SessionManager where
  identity : Nat
  signedPrekey : SignedPreKey
  oneTimePrekeys : List OneTimePreKey
  sessions : List (String × Session)
  nextPrekeyId : Nat
deriving DecidableEq

/-- `SessionManager::receive_session` from `session.rs`: delegates to
`Session::receive` with `&mut self.one_time_prekeys` and stores the session
under the peer id on success. -/
def SessionManager.receiveSession (m : SessionManager) (peerId : String)
    (msg : X3DHInitialMessage) (freshDh2 : Nat) :
    Except CryptoError Unit × SessionManager :=
  let r := Session.receive m.identity m.signedPrekey m.oneTimePrekeys peerId msg
    freshDh2
  let m1 := { m with oneTimePrekeys := r.2 }
  match r.1 with
  | .error e => (.error e, m1)
  | .ok s =>
    (.ok (), { m1 with
      sessions := (peerId, s) :: m1.sessions.filter (fun p => p.1 ≠ peerId) })

/-- A registry holding two one-time prekeys, ids 1 and 2. -/
def c5Mgr : SessionManager :=
  { identity := 3
    signedPrekey := ⟨1, 5, sign 3 (dhPub 5)⟩
    oneTimePrekeys := [⟨1, 7⟩, ⟨2, 23⟩]
    sessions := []
    nextPrekeyId := 3 }

/-- An initial message consuming the one-time prekey with id 1. -/
def c5Msg : X3DHInitialMessage := ⟨2, 11, 1, some 1⟩

end X3dh

/-- Claim C5 (code bug): after a successful `SessionManager::receive_session`
consuming one-time prekey id 1, the registry's pool is empty — the unconsumed
prekey id 2 is NOT still present.  `Session::receive` takes the whole pool
with `std::mem::take` and never restores the remaining keys, so every other
one-time prekey is lost rather than retained. -/
theorem c5_receive_session_wipes_pool :
    (X3dh.SessionManager.receiveSession X3dh.c5Mgr "alice" X3dh.c5Msg 17).1 =
        .ok () ∧
      (X3dh.SessionManager.receiveSession X3dh.c5Mgr "alice" X3dh.c5Msg
          17).2.oneTimePrekeys = [] ∧
      ¬ (⟨2, 23⟩ : X3dh.OneTimePreKey) ∈
        (X3dh.SessionManager.receiveSession X3dh.c5Mgr "alice" X3dh.c5Msg
          17).2.oneTimePrekeys := by
  decide

namespace Store

/-- A row of the `messages` table (`db/messages.rs`). -/
structure MessageRow where
  id : Nat
  senderId : Nat
  recipientId : Nat
  ciphertext : List Nat
  messageType : Nat
  createdAt : Nat
  deliveredAt : Option Nat
deriving DecidableEq

/-- `mark_delivered` from `db/messages.rs`:
`UPDATE messages SET delivered_at = NOW() WHERE id = ANY($1) AND
delivered_at IS NULL`, as a pure function of the table state and the clock. -/
def markDelivered (table : List MessageRow) (ids : List Nat) (now : Nat) :
    List MessageRow :=
  table.map fun r =>
    if r.id ∈ ids ∧ r.deliveredAt = none then { r with deliveredAt := some now }
    else r

/-- `handle_ack_messages` from `ws/message.rs`: passes all listed ids to
`mark_delivered`; the acknowledging user is used only for logging and plays no
role in which rows are updated. -/
def handleAckMessages (_ackingUser : Nat) (table : List MessageRow)
    (ids : List Nat) (now : Nat) : List MessageRow :=
  markDelivered table ids now

end Store

/-- Claim C9: handling an `AckMessages` frame sets `delivered_at := now` on
exactly the listed rows whose `delivered_at` was null, leaves every other row
and every other column unchanged (row count and order included), and the
result does not depend on which user acknowledges. -/
theorem c9_ack_marks_exactly_null_listed_rows (user user' : Nat)
    (table : List Store.MessageRow) (ids : List Nat) (now : Nat) :
    (Store.handleAckMessages user table ids now).length = table.length ∧
      (∀ (i : Nat) (r : Store.MessageRow), table[i]? = some r →
        (Store.handleAckMessages user table ids now)[i]? =
          some (if r.id ∈ ids ∧ r.deliveredAt = none
            then { r with deliveredAt := some now } else r)) ∧
      Store.handleAckMessages user' table ids now =
        Store.handleAckMessages user table ids now := by
  refine ⟨by simp [Store.handleAckMessages, Store.markDelivered], ?_, rfl⟩
  intro i r hir
  simp [Store.handleAckMessages, Store.markDelivered, hir]

theorem c9_ack_marks_exactly_null_listed_rows_witness :
    (Store.handleAckMessages 5 [⟨1, 2, 3, [9], 2, 50, none⟩] [1] 100).length =
        [(⟨1, 2, 3, [9], 2, 50, none⟩ : Store.MessageRow)].length ∧
      (∀ (i : Nat) (r : Store.MessageRow),
          [(⟨1, 2, 3, [9], 2, 50, none⟩ : Store.MessageRow)][i]? = some r →
        (Store.handleAckMessages 5 [⟨1, 2, 3, [9], 2, 50, none⟩] [1] 100)[i]? =
          some (if r.id ∈ [1] ∧ r.deliveredAt = none
            then { r with deliveredAt := some 100 } else r)) ∧
      Store.handleAckMessages 6 [⟨1, 2, 3, [9], 2, 50, none⟩] [1] 100 =
        Store.handleAckMessages 5 [⟨1, 2, 3, [9], 2, 50, none⟩] [1] 100 :=
  c9_ack_marks_exactly_null_listed_rows 5 6 [⟨1, 2, 3, [9], 2, 50, none⟩] [1] 100

namespace Wire

/-- Little-endian 4-byte encoding of a `u32` (bincode 1.x fixed-int). -/
def w32 (n : Nat) : List Nat :=
  [n % 256, n / 256 % 256, n / 65536 % 256, n / 16777216 % 256]

/-- Little-endian 8-byte encoding of a `u64` (bincode 1.x fixed-int). -/
def w64 (n : Nat) : List Nat :=
  [n % 256, n / 256 % 256, n / 65536 % 256, n / 16777216 % 256,
   n / 4294967296 % 256, n / 1099511627776 % 256,
   n / 281474976710656 % 256, n / 72057594037927936 % 256]

/-- Read a little-endian `u32`. -/
def rU32 : List Nat → Option (Nat × List Nat)
  | b0 :: b1 :: b2 :: b3 :: rest =>
    some (b0 + 256 * b1 + 65536 * b2 + 16777216 * b3, rest)
  | _ => none

/-- Read a little-endian `u64`. -/
def rU64 : List Nat → Option (Nat × List Nat)
  | b0 :: b1 :: b2 :: b3 :: b4 :: b5 :: b6 :: b7 :: rest =>
    some (b0 + 256 * b1 + 65536 * b2 + 16777216 * b3 + 4294967296 * b4 +
      1099511627776 * b5 + 281474976710656 * b6 + 72057594037927936 * b7, rest)
  | _ => none

/-- Read exactly `n` bytes. -/
def rChunk (n : Nat) (s : List Nat) : Option (List Nat × List Nat) :=
  if n ≤ s.length then some (s.take n, s.drop n) else none

theorem rU32_w32 (n : Nat) (hn : n < 4294967296) (rest : List Nat) :
    rU32 (w32 n ++ rest) = some (n, rest) := by
  simp only [w32, List.cons_append, List.nil_append, rU32]
  congr 1
  congr 1
  omega

theorem rU64_w64 (n : Nat) (hn : n < 18446744073709551616) (rest : List Nat) :
    rU64 (w64 n ++ rest) = some (n, rest) := by
  simp only [w64, List.cons_append, List.nil_append, rU64]
  congr 1
  congr 1
  omega

theorem rChunk_append (bs rest : List Nat) :
    rChunk bs.length (bs ++ rest) = some (bs, rest) := by
  simp [rChunk]

/-- Expect one exact scalar. -/
def pByte (b : Nat) : List Nat → Option (List Nat)
  | c :: rest => if c = b then some rest else none
  | [] => none

/-- Expect an exact literal. -/
def pLit : List Nat → List Nat → Option (List Nat)
  | [], s => some s
  | l :: ls, c :: rest => if c = l then pLit ls rest else none
  | _ :: _, [] => none

theorem pByte_cons (b : Nat) (rest : List Nat) : pByte b (b :: rest) = some rest := by
  simp [pByte]

theorem pLit_append (l rest : List Nat) : pLit l (l ++ rest) = some rest := by
  induction l with
  | nil => rfl
  | cons c l ih => simpa [pLit] using ih

/-- ASCII decimal digit test. -/
def isDigit (c : Nat) : Bool := 48 ≤ c && c ≤ 57

/-- Decimal rendering of a `Nat` (as `serde_json` prints unsigned
integers). -/
def printNat (n : Nat) : List Nat :=
  if _h : n < 10 then [48 + n]
  else printNat (n / 10) ++ [48 + n % 10]
decreasing_by omega

/-- Canonical decimal parse: the longest leading digit run. -/
def pNat (s : List Nat) : Option (Nat × List Nat) :=
  let ds := s.takeWhile isDigit
  if ds.isEmpty then none
  else some (ds.foldl (fun acc d => acc * 10 + (d - 48)) 0, s.dropWhile isDigit)

theorem printNat_digits (n : Nat) : (printNat n).all isDigit = true := by
  induction n using Nat.strong_induction_on with
  | _ n ih =>
    rw [printNat]
    by_cases h : n < 10
    · simp only [h, dite_true, List.all_cons, List.all_nil, Bool.and_true]
      simp [isDigit]
      all_goals omega
    · simp only [h, dite_false, List.all_append, List.all_cons, List.all_nil]
      rw [ih (n / 10) (by omega)]
      simp [isDigit]
      all_goals omega

theorem printNat_ne_nil (n : Nat) : printNat n ≠ [] := by
  rw [printNat]
  by_cases h : n < 10 <;> simp [h]

theorem printNat_foldl (n : Nat) : ∀ acc : Nat,
    (printNat n).foldl (fun acc d => acc * 10 + (d - 48)) acc =
      acc * 10 ^ (printNat n).length + n := by
  induction n using Nat.strong_induction_on with
  | _ n ih =>
    intro acc
    rw [printNat]
    by_cases h : n < 10
    · simp only [h, dite_true, List.foldl_cons, List.foldl_nil, List.length_cons,
        List.length_nil]
      simp
    · simp only [h, dite_false, List.foldl_append, List.foldl_cons, List.foldl_nil,
        List.length_append, List.length_cons, List.length_nil]
      rw [ih (n / 10) (by omega)]
      have : 10 ^ ((printNat (n / 10)).length + (0 + 1)) =
          10 ^ (printNat (n / 10)).length * 10 := by ring
      rw [this]
      have hmod : 48 + n % 10 - 48 = n % 10 := by omega
      rw [hmod]
      have := Nat.div_add_mod n 10
      nlinarith [Nat.div_add_mod n 10]

/-- The next scalar (if any) is not a digit, so a greedy decimal parse stops
exactly at the rendered number's end. -/
def headNotDigit : List Nat → Prop
  | [] => True
  | c :: _ => isDigit c = false

theorem takeWhile_all_append (l rest : List Nat) (hl : l.all isDigit = true)
    (hr : headNotDigit rest) :
    (l ++ rest).takeWhile isDigit = l ∧ (l ++ rest).dropWhile isDigit = rest := by
  induction l with
  | nil =>
    cases rest with
    | nil => simp
    | cons c r =>
      simp only [headNotDigit] at hr
      simp [List.takeWhile, List.dropWhile, hr]
  | cons c l ih =>
    simp only [List.all_cons, Bool.and_eq_true] at hl
    have := ih hl.2
    simp [List.takeWhile_cons, List.dropWhile_cons, hl.1, this.1, this.2]

theorem pNat_printNat (n : Nat) (rest : List Nat) (hr : headNotDigit rest) :
    pNat (printNat n ++ rest) = some (n, rest) := by
  have hall := printNat_digits n
  have htw := takeWhile_all_append (printNat n) rest hall hr
  simp only [pNat, htw.1, htw.2]
  rw [if_neg (by simp [List.isEmpty_iff, printNat_ne_nil n])]
  rw [printNat_foldl n 0]
  simp

end Wire

namespace Wire

/-- A UTF-8 continuation byte. -/
def isCont (b : Nat) : Bool := 128 ≤ b && b < 192

/-- A Unicode scalar value (what a Rust `char` holds): below `0x110000` and
not a surrogate. -/
def scalarOk (c : Nat) : Bool :=
  decide (c < 55296) || (decide (57344 ≤ c) && decide (c < 1114112))

/-- UTF-8 encoding of one scalar (how a Rust `String` stores a `char`). -/
def utf8EncodeChar (c : Nat) : List Nat :=
  if c < 128 then [c]
  else if c < 2048 then [192 + c / 64, 128 + c % 64]
  else if c < 65536 then [224 + c / 4096, 128 + c / 64 % 64, 128 + c % 64]
  else [240 + c / 262144, 128 + c / 4096 % 64, 128 + c / 64 % 64, 128 + c % 64]

/-- UTF-8 encoding of a scalar string. -/
def utf8Encode (s : List Nat) : List Nat := (s.map utf8EncodeChar).flatten

/-- Decode one UTF-8 sequence (continuation ranges, overlong forms,
surrogates and out-of-range values all rejected). -/
def utf8DecodeOne : List Nat → Option (Nat × List Nat)
  | [] => none
  | b :: rest =>
    if b < 128 then some (b, rest)
    else if b < 192 then none
    else if b < 224 then
      match rest with
      | b2 :: rest2 =>
        if isCont b2 ∧ 128 ≤ (b - 192) * 64 + (b2 - 128) then
          some ((b - 192) * 64 + (b2 - 128), rest2)
        else none
      | [] => none
    else if b < 240 then
      match rest with
      | b2 :: b3 :: rest2 =>
        if isCont b2 ∧ isCont b3 ∧
            2048 ≤ (b - 224) * 4096 + (b2 - 128) * 64 + (b3 - 128) ∧
            scalarOk ((b - 224) * 4096 + (b2 - 128) * 64 + (b3 - 128)) then
          some ((b - 224) * 4096 + (b2 - 128) * 64 + (b3 - 128), rest2)
        else none
      | _ => none
    else if b < 248 then
      match rest with
      | b2 :: b3 :: b4 :: rest2 =>
        if isCont b2 ∧ isCont b3 ∧ isCont b4 ∧
            65536 ≤ (b - 240) * 262144 + (b2 - 128) * 4096 + (b3 - 128) * 64 +
              (b4 - 128) ∧
            (b - 240) * 262144 + (b2 - 128) * 4096 + (b3 - 128) * 64 + (b4 - 128) <
              1114112 then
          some ((b - 240) * 262144 + (b2 - 128) * 4096 + (b3 - 128) * 64 +
            (b4 - 128), rest2)
        else none
      | _ => none
    else none

/-- UTF-8 validation-and-decoding loop, with fuel (each step consumes at
least one byte, so byte-length fuel always suffices). -/
def utf8DecodeAux : Nat → List Nat → Option (List Nat)
  | _, [] => some []
  | 0, _ :: _ => none
  | fuel + 1, b :: rest =>
    match utf8DecodeOne (b :: rest) with
    | some (c, rest2) => (utf8DecodeAux fuel rest2).map (c :: ·)
    | none => none

/-- UTF-8 validation-and-decoding, as `std::str::from_utf8` performs it,
returning the scalar sequence. -/
def utf8Decode (s : List Nat) : Option (List Nat) := utf8DecodeAux s.length s

theorem utf8DecodeOne_encodeChar (c : Nat) (hc : scalarOk c = true)
    (rest : List Nat) :
    utf8DecodeOne (utf8EncodeChar c ++ rest) = some (c, rest) := by
  simp only [scalarOk, Bool.or_eq_true, Bool.and_eq_true, decide_eq_true_eq] at hc
  unfold utf8EncodeChar
  by_cases h1 : c < 128
  · rw [if_pos h1]
    simp only [List.cons_append, List.nil_append]
    unfold utf8DecodeOne
    try dsimp only
    rw [if_pos h1]
  · rw [if_neg h1]
    by_cases h2 : c < 2048
    · rw [if_pos h2]
      simp only [List.cons_append, List.nil_append]
      unfold utf8DecodeOne
      try dsimp only
      rw [if_neg (by omega), if_neg (by omega), if_pos (by omega)]
      try dsimp only
      have hcond : isCont (128 + c % 64) = true ∧
          128 ≤ (192 + c / 64 - 192) * 64 + (128 + c % 64 - 128) := by
        constructor
        · simp only [isCont, Bool.and_eq_true, decide_eq_true_eq]
          omega
        · omega
      rw [if_pos hcond]
      all_goals simp only [Option.some.injEq, Prod.mk.injEq, eq_self_iff_true, and_true]
      all_goals omega
    · rw [if_neg h2]
      by_cases h3 : c < 65536
      · rw [if_pos h3]
        simp only [List.cons_append, List.nil_append]
        unfold utf8DecodeOne
        try dsimp only
        rw [if_neg (by omega), if_neg (by omega), if_neg (by omega), if_pos (by omega)]
        try dsimp only
        have hv : (224 + c / 4096 - 224) * 4096 + (128 + c / 64 % 64 - 128) * 64 +
            (128 + c % 64 - 128) = c := by omega
        have hsc : scalarOk ((224 + c / 4096 - 224) * 4096 +
            (128 + c / 64 % 64 - 128) * 64 + (128 + c % 64 - 128)) = true := by
          rw [hv]
          simp only [scalarOk, Bool.or_eq_true, Bool.and_eq_true, decide_eq_true_eq]
          omega
        have hcond : isCont (128 + c / 64 % 64) = true ∧ isCont (128 + c % 64) = true ∧
            2048 ≤ (224 + c / 4096 - 224) * 4096 + (128 + c / 64 % 64 - 128) * 64 +
              (128 + c % 64 - 128) ∧
            scalarOk ((224 + c / 4096 - 224) * 4096 + (128 + c / 64 % 64 - 128) * 64 +
              (128 + c % 64 - 128)) = true := by
          refine ⟨?_, ?_, by omega, hsc⟩ <;>
            (simp only [isCont, Bool.and_eq_true, decide_eq_true_eq]; omega)
        rw [if_pos hcond]
        all_goals simp only [Option.some.injEq, Prod.mk.injEq, eq_self_iff_true, and_true]
        all_goals omega
      · rw [if_neg h3]
        simp only [List.cons_append, List.nil_append]
        unfold utf8DecodeOne
        try dsimp only
        rw [if_neg (by omega), if_neg (by omega), if_neg (by omega), if_neg (by omega),
          if_pos (by omega)]
        try dsimp only
        have hcond : isCont (128 + c / 4096 % 64) = true ∧
            isCont (128 + c / 64 % 64) = true ∧ isCont (128 + c % 64) = true ∧
            65536 ≤ (240 + c / 262144 - 240) * 262144 + (128 + c / 4096 % 64 - 128) * 4096 +
              (128 + c / 64 % 64 - 128) * 64 + (128 + c % 64 - 128) ∧
            (240 + c / 262144 - 240) * 262144 + (128 + c / 4096 % 64 - 128) * 4096 +
              (128 + c / 64 % 64 - 128) * 64 + (128 + c % 64 - 128) < 1114112 := by
          refine ⟨?_, ?_, ?_, by omega, by omega⟩ <;>
            (simp only [isCont, Bool.and_eq_true, decide_eq_true_eq]; omega)
        rw [if_pos hcond]
        all_goals simp only [Option.some.injEq, Prod.mk.injEq, eq_self_iff_true, and_true]
        all_goals omega

theorem utf8EncodeChar_cons (c : Nat) :
    ∃ b t, utf8EncodeChar c = b :: t := by
  unfold utf8EncodeChar
  by_cases h1 : c < 128
  · exact ⟨_, _, by rw [if_pos h1]⟩
  · rw [if_neg h1]
    by_cases h2 : c < 2048
    · exact ⟨_, _, by rw [if_pos h2]⟩
    · rw [if_neg h2]
      by_cases h3 : c < 65536
      · exact ⟨_, _, by rw [if_pos h3]⟩
      · exact ⟨_, _, by rw [if_neg h3]⟩

theorem utf8DecodeAux_encode : ∀ (n : Nat) (s : List Nat),
    s.all scalarOk = true → s.length ≤ n → utf8DecodeAux n (utf8Encode s) = some s := by
  intro n
  induction n with
  | zero =>
    intro s hs hl
    have : s = [] := by cases s <;> simp_all
    subst this
    rfl
  | succ f ih =>
    intro s hs hl
    cases s with
    | nil => rfl
    | cons c s' =>
      simp only [List.all_cons, Bool.and_eq_true] at hs
      simp only [utf8Encode, List.map_cons, List.flatten_cons]
      obtain ⟨b, t, henc⟩ := utf8EncodeChar_cons c
      have hone := utf8DecodeOne_encodeChar c hs.1 (utf8Encode s')
      rw [henc] at hone ⊢
      simp only [List.cons_append]
      simp only [utf8DecodeAux]
      rw [show t ++ (s'.map utf8EncodeChar).flatten = t ++ utf8Encode s' from rfl]
      rw [List.cons_append] at hone
      rw [hone]
      dsimp only
      rw [ih s' hs.2 (by simpa using Nat.le_of_succ_le_succ (by simpa using hl))]
      rfl

theorem utf8Decode_encode (s : List Nat) (hs : s.all scalarOk = true) :
    utf8Decode (utf8Encode s) = some s := by
  unfold utf8Decode
  apply utf8DecodeAux_encode _ _ hs
  -- each scalar encodes to at least one byte, so byte length bounds char count
  induction s with
  | nil => simp [utf8Encode]
  | cons c s' ih =>
    simp only [List.all_cons, Bool.and_eq_true] at hs
    simp only [utf8Encode, List.map_cons, List.flatten_cons, List.length_cons,
      List.length_append]
    obtain ⟨b, t, henc⟩ := utf8EncodeChar_cons c
    have := ih hs.2
    simp only [utf8Encode] at this
    rw [henc]
    simp only [List.length_cons]
    omega

/-- Lowercase hex digit (as the `uuid` crate prints). -/
def hexDigit (d : Nat) : Nat := if d < 10 then 48 + d else 87 + d

/-- Parse one lowercase hex digit. -/
def hexVal (c : Nat) : Option Nat :=
  if 48 ≤ c ∧ c ≤ 57 then some (c - 48)
  else if 97 ≤ c ∧ c ≤ 102 then some (c - 87)
  else none

theorem hexVal_hexDigit : ∀ d, d < 16 → hexVal (hexDigit d) = some d := by decide

/-- Two-digit hex rendering of a byte. -/
def byteHex (b : Nat) : List Nat := [hexDigit (b / 16), hexDigit (b % 16)]

/-- Hex rendering of a byte list. -/
def hexCat (bs : List Nat) : List Nat := (bs.map byteHex).flatten

/-- Parse exactly `n` hex-rendered bytes. -/
def pHexBytes : Nat → List Nat → Option (List Nat × List Nat)
  | 0, s => some ([], s)
  | n + 1, s =>
    match s with
    | c1 :: c2 :: rest =>
      match hexVal c1, hexVal c2 with
      | some h, some l => (pHexBytes n rest).map (fun p => ((16 * h + l) :: p.1, p.2))
      | _, _ => none
    | _ => none

theorem pHexBytes_hexCat (bs : List Nat)
    (hb : bs.all (fun x => decide (x < 256)) = true) (rest : List Nat) :
    pHexBytes bs.length (hexCat bs ++ rest) = some (bs, rest) := by
  induction bs with
  | nil => rfl
  | cons b bs ih =>
    simp only [List.all_cons, Bool.and_eq_true, decide_eq_true_eq] at hb
    simp only [hexCat, List.map_cons, List.flatten_cons, List.length_cons, byteHex,
      List.cons_append, List.append_assoc, List.nil_append]
    unfold pHexBytes
    try dsimp only
    rw [hexVal_hexDigit (b / 16) (by omega), hexVal_hexDigit (b % 16) (by omega)]
    try dsimp only
    rw [show (List.map byteHex bs).flatten ++ rest = hexCat bs ++ rest from rfl,
      ih hb.2]
    simp only [Option.map_some']
    simp only [Option.some.injEq, Prod.mk.injEq, eq_self_iff_true, and_true]
    have hbv : 16 * (b / 16) + b % 16 = b := by omega
    rw [hbv]

end Wire

namespace Wire

/-- `serde_json`'s escaping of one string character: quote and backslash get
a backslash escape, the control characters BS/TAB/LF/FF/CR get their short
escapes, other control characters get `\u00XX`, and everything else passes
through. -/
def escChar (c : Nat) : List Nat :=
  if c = 34 then [92, 34]
  else if c = 92 then [92, 92]
  else if c = 8 then [92, 98]
  else if c = 9 then [92, 116]
  else if c = 10 then [92, 110]
  else if c = 12 then [92, 102]
  else if c = 13 then [92, 114]
  else if c < 32 then [92, 117, 48, 48] ++ byteHex c
  else [c]

/-- Escaped rendering of a string body. -/
def escStr (s : List Nat) : List Nat := (s.map escChar).flatten

/-- Prepend a scalar to a string-parse result. -/
def mapConsFst (c : Nat) : Option (List Nat × List Nat) → Option (List Nat × List Nat)
  | some (s, r) => some (c :: s, r)
  | none => none

/-- Parse a JSON string body up to the closing quote, undoing the escapes
`serde_json` emits and rejecting raw control characters (as JSON requires). -/
def pStrBody : List Nat → Option (List Nat × List Nat)
  | [] => none
  | c :: rest =>
    if c = 34 then some ([], rest)
    else if c = 92 then
      match rest with
      | [] => none
      | e :: rest2 =>
        if e = 34 then mapConsFst 34 (pStrBody rest2)
        else if e = 92 then mapConsFst 92 (pStrBody rest2)
        else if e = 98 then mapConsFst 8 (pStrBody rest2)
        else if e = 116 then mapConsFst 9 (pStrBody rest2)
        else if e = 110 then mapConsFst 10 (pStrBody rest2)
        else if e = 102 then mapConsFst 12 (pStrBody rest2)
        else if e = 114 then mapConsFst 13 (pStrBody rest2)
        else if e = 117 then
          match rest2 with
          | 48 :: 48 :: h :: l :: rest3 =>
            match hexVal h, hexVal l with
            | some hv, some lv => mapConsFst (16 * hv + lv) (pStrBody rest3)
            | _, _ => none
          | _ => none
        else none
    else if 32 ≤ c then mapConsFst c (pStrBody rest)
    else none

theorem pStrBody_escStr (s : List Nat) (hs : s.all scalarOk = true)
    (rest : List Nat) :
    pStrBody (escStr s ++ (34 :: rest)) = some (s, rest) := by
  induction s with
  | nil =>
    simp only [escStr, List.map_nil, List.flatten_nil, List.nil_append]
    unfold pStrBody
    rw [if_pos rfl]
  | cons c s ih =>
    simp only [List.all_cons, Bool.and_eq_true] at hs
    have ihs := ih hs.2
    simp only [escStr, List.map_cons, List.flatten_cons, List.append_assoc]
    rw [show (s.map escChar).flatten ++ (34 :: rest) = escStr s ++ (34 :: rest)
      from rfl]
    unfold escChar
    by_cases h34 : c = 34
    · rw [if_pos h34]
      simp only [List.cons_append, List.nil_append]
      unfold pStrBody
      rw [if_neg (by omega), if_pos rfl]
      try dsimp only
      rw [if_pos rfl]
      rw [ihs]
      simp [mapConsFst, h34]
    · rw [if_neg h34]
      by_cases h92 : c = 92
      · rw [if_pos h92]
        simp only [List.cons_append, List.nil_append]
        unfold pStrBody
        rw [if_neg (by omega), if_pos rfl]
        try dsimp only
        rw [if_neg (by omega), if_pos rfl]
        rw [ihs]
        simp [mapConsFst, h92]
      · rw [if_neg h92]
        by_cases h8 : c = 8
        · rw [if_pos h8]
          simp only [List.cons_append, List.nil_append]
          unfold pStrBody
          rw [if_neg (by omega), if_pos rfl]
          try dsimp only
          rw [if_neg (by omega), if_neg (by omega), if_pos rfl]
          rw [ihs]
          simp [mapConsFst, h8]
        · rw [if_neg h8]
          by_cases h9 : c = 9
          · rw [if_pos h9]
            simp only [List.cons_append, List.nil_append]
            unfold pStrBody
            rw [if_neg (by omega), if_pos rfl]
            try dsimp only
            rw [if_neg (by omega), if_neg (by omega), if_neg (by omega), if_pos rfl]
            rw [ihs]
            simp [mapConsFst, h9]
          · rw [if_neg h9]
            by_cases h10 : c = 10
            · rw [if_pos h10]
              simp only [List.cons_append, List.nil_append]
              unfold pStrBody
              rw [if_neg (by omega), if_pos rfl]
              try dsimp only
              rw [if_neg (by omega), if_neg (by omega), if_neg (by omega),
                if_neg (by omega), if_pos rfl]
              rw [ihs]
              simp [mapConsFst, h10]
            · rw [if_neg h10]
              by_cases h12 : c = 12
              · rw [if_pos h12]
                simp only [List.cons_append, List.nil_append]
                unfold pStrBody
                rw [if_neg (by omega), if_pos rfl]
                try dsimp only
                rw [if_neg (by omega), if_neg (by omega), if_neg (by omega),
                  if_neg (by omega), if_neg (by omega), if_pos rfl]
                rw [ihs]
                simp [mapConsFst, h12]
              · rw [if_neg h12]
                by_cases h13 : c = 13
                · rw [if_pos h13]
                  simp only [List.cons_append, List.nil_append]
                  unfold pStrBody
                  rw [if_neg (by omega), if_pos rfl]
                  try dsimp only
                  rw [if_neg (by omega), if_neg (by omega), if_neg (by omega),
                    if_neg (by omega), if_neg (by omega), if_neg (by omega),
                    if_pos rfl]
                  rw [ihs]
                  simp [mapConsFst, h13]
                · rw [if_neg h13]
                  by_cases hctl : c < 32
                  · rw [if_pos hctl]
                    simp only [byteHex, List.cons_append, List.nil_append]
                    unfold pStrBody
                    rw [if_neg (by omega), if_pos rfl]
                    try dsimp only
                    rw [if_neg (by omega), if_neg (by omega), if_neg (by omega),
                      if_neg (by omega), if_neg (by omega), if_neg (by omega),
                      if_neg (by omega), if_pos rfl]
                    try dsimp only
                    rw [hexVal_hexDigit (c / 16) (by omega),
                      hexVal_hexDigit (c % 16) (by omega)]
                    try dsimp only
                    rw [ihs]
                    have hc16 : 16 * (c / 16) + c % 16 = c := by omega
                    simp [mapConsFst, hc16]
                  · rw [if_neg hctl]
                    simp only [List.cons_append, List.nil_append]
                    unfold pStrBody
                    rw [if_neg h34, if_neg h92, if_pos (by omega)]
                    rw [ihs]
                    simp [mapConsFst]

end Wire

namespace Wire

/-- A UUID's 16 raw bytes (`uuid::Uuid`). -/
abbrev Uuid := List Nat

/-- Well-formed UUID: 16 bytes. -/
def wfUuid (u : Uuid) : Bool :=
  decide (u.length = 16) && u.all (fun x => decide (x < 256))

/-- Well-formed byte vector: byte-ranged entries, `usize`-bounded length. -/
def wfBytes (bs : List Nat) : Bool :=
  bs.all (fun x => decide (x < 256)) && decide (bs.length < 18446744073709551616)

/-- A `u32` value. -/
def wfU32 (n : Nat) : Bool := decide (n < 4294967296)

/-- Well-formed Rust string: Unicode scalars, `usize`-bounded UTF-8 length. -/
def wfStr (s : List Nat) : Bool :=
  s.all scalarOk && decide ((utf8Encode s).length < 18446744073709551616)

/-- `MessageType` from `chai-protocol/src/messages.rs` (serde uses variant
indices 0..3 and names, not the `#[repr(u8)]` discriminants). -/
inductive MessageType where
  | prekey | normal | receipt | keyUpdate
deriving DecidableEq

/-- `PrekeyBundleData` from `messages.rs`. -/
structure PrekeyBundleData where
  identityKey : List Nat
  signedPrekey : List Nat
  signedPrekeySignature : List Nat
  signedPrekeyId : Nat
  oneTimePrekey : Option (List Nat)
  oneTimePrekeyId : Option Nat
deriving DecidableEq

/-- `OneTimePrekey` from `messages.rs` (the upload payload type). -/
structure OneTimePrekeyUpload where
  id : Nat
  key : List Nat
deriving DecidableEq

/-- `ClientMessage` from `messages.rs`, the relay's client→server frame sum
type (`#[serde(tag = "type", content = "payload")]`). -/
inductive ClientMessage where
  | sendMessage (recipientId conversationId : Uuid) (ciphertext : List Nat)
      (messageType : MessageType)
  | getPrekeyBundle (userId : Uuid)
  | uploadPrekeyBundle (bundle : PrekeyBundleData)
  | uploadOneTimePrekeys (prekeys : List OneTimePrekeyUpload)
  | ackMessages (messageIds : List Uuid)
  | ping
  | subscribePresence (userIds : List Uuid)
  | typingStart (recipientId conversationId : Uuid)
  | typingStop (recipientId conversationId : Uuid)
  | addReaction (messageId conversationId : Uuid) (emoji : List Nat)
  | removeReaction (messageId conversationId : Uuid) (emoji : List Nat)
  | markRead (conversationId : Uuid) (messageIds : List Uuid)
deriving DecidableEq

/-- Well-formed bundle payload. -/
def wfBundle (b : PrekeyBundleData) : Bool :=
  wfBytes b.identityKey && wfBytes b.signedPrekey && wfBytes b.signedPrekeySignature &&
    wfU32 b.signedPrekeyId &&
    (match b.oneTimePrekey with | none => true | some k => wfBytes k) &&
    (match b.oneTimePrekeyId with | none => true | some i => wfU32 i)

/-- Well-formed one-time-prekey upload entry. -/
def wfOtp (p : OneTimePrekeyUpload) : Bool := wfU32 p.id && wfBytes p.key

/-- Well-formed list payload: well-formed items, `usize`-bounded length. -/
def wfList {α : Type} (f : α → Bool) (l : List α) : Bool :=
  l.all f && decide (l.length < 18446744073709551616)

/-- A frame value that the Rust types can actually hold (`u32` ids, 16-byte
UUIDs, byte-ranged vectors, scalar strings, `usize` lengths). -/
def wfClient : ClientMessage → Bool
  | .sendMessage r c ct _ => wfUuid r && wfUuid c && wfBytes ct
  | .getPrekeyBundle u => wfUuid u
  | .uploadPrekeyBundle b => wfBundle b
  | .uploadOneTimePrekeys ps => wfList wfOtp ps
  | .ackMessages ids => wfList wfUuid ids
  | .ping => true
  | .subscribePresence us => wfList wfUuid us
  | .typingStart r c => wfUuid r && wfUuid c
  | .typingStop r c => wfUuid r && wfUuid c
  | .addReaction m c e => wfUuid m && wfUuid c && wfStr e
  | .removeReaction m c e => wfUuid m && wfUuid c && wfStr e
  | .markRead c ids => wfUuid c && wfList wfUuid ids

/-- bincode: `serialize_bytes` / `Vec<u8>` — `u64` length then the bytes. -/
def bBytes (bs : List Nat) : List Nat := w64 bs.length ++ bs

/-- bincode: a UUID (`serialize_bytes` of its 16 bytes). -/
def bUuid (u : Uuid) : List Nat := w64 u.length ++ u

/-- bincode: a `String` — `u64` UTF-8 byte length then the UTF-8 bytes. -/
def bStr (s : List Nat) : List Nat := w64 (utf8Encode s).length ++ utf8Encode s

/-- bincode: `Option<T>` — tag byte 0/1 then the payload. -/
def bOption {α : Type} (f : α → List Nat) : Option α → List Nat
  | none => [0]
  | some x => 1 :: f x

/-- bincode: `Vec<T>` — `u64` length then the items. -/
def bList {α : Type} (f : α → List Nat) (l : List α) : List Nat :=
  w64 l.length ++ (l.map f).flatten

/-- bincode: a plain enum is its `u32` variant index. -/
def bMessageType : MessageType → List Nat
  | .prekey => w32 0
  | .normal => w32 1
  | .receipt => w32 2
  | .keyUpdate => w32 3

/-- bincode: `PrekeyBundleData`, fields in declaration order. -/
def bBundle (b : PrekeyBundleData) : List Nat :=
  bBytes b.identityKey ++ bBytes b.signedPrekey ++ bBytes b.signedPrekeySignature ++
    w32 b.signedPrekeyId ++ bOption bBytes b.oneTimePrekey ++
    bOption w32 b.oneTimePrekeyId

/-- bincode: `OneTimePrekey`, fields in declaration order. -/
def bOtp (p : OneTimePrekeyUpload) : List Nat := w32 p.id ++ bBytes p.key

/-- `encode_client_message` (bincode 1.x with serde's adjacent tagging: the
tag is serialized as a unit variant, i.e. the `u32` variant index, followed by
the payload fields; unit variants have no payload). -/
def bincodeEncodeClient : ClientMessage → List Nat
  | .sendMessage r c ct mt => w32 0 ++ bUuid r ++ bUuid c ++ bBytes ct ++ bMessageType mt
  | .getPrekeyBundle u => w32 1 ++ bUuid u
  | .uploadPrekeyBundle b => w32 2 ++ bBundle b
  | .uploadOneTimePrekeys ps => w32 3 ++ bList bOtp ps
  | .ackMessages ids => w32 4 ++ bList bUuid ids
  | .ping => w32 5
  | .subscribePresence us => w32 6 ++ bList bUuid us
  | .typingStart r c => w32 7 ++ bUuid r ++ bUuid c
  | .typingStop r c => w32 8 ++ bUuid r ++ bUuid c
  | .addReaction m c e => w32 9 ++ bUuid m ++ bUuid c ++ bStr e
  | .removeReaction m c e => w32 10 ++ bUuid m ++ bUuid c ++ bStr e
  | .markRead c ids => w32 11 ++ bUuid c ++ bList bUuid ids

/-- Read a byte vector (`u64` length + bytes). -/
def rBytes (s : List Nat) : Option (List Nat × List Nat) :=
  match rU64 s with
  | some (n, s2) => rChunk n s2
  | none => none

/-- Read a UUID (byte vector that `Uuid::try_from` requires to have
exactly 16 bytes). -/
def rUuid (s : List Nat) : Option (Uuid × List Nat) :=
  match rBytes s with
  | some (bs, s2) => if bs.length = 16 then some (bs, s2) else none
  | none => none

/-- Read a `String` (byte vector that must be valid UTF-8). -/
def rStr (s : List Nat) : Option (List Nat × List Nat) :=
  match rBytes s with
  | some (bs, s2) =>
    match utf8Decode bs with
    | some t => some (t, s2)
    | none => none
  | none => none

/-- Read an `Option<T>`. -/
def rOption {α : Type} (pf : List Nat → Option (α × List Nat)) (s : List Nat) :
    Option (Option α × List Nat) :=
  match s with
  | [] => none
  | b :: s2 =>
    if b = 0 then some (none, s2)
    else if b = 1 then
      match pf s2 with
      | some (x, s3) => some (some x, s3)
      | none => none
    else none

/-- Read exactly `n` items. -/
def rCount {α : Type} (pf : List Nat → Option (α × List Nat)) :
    Nat → List Nat → Option (List α × List Nat)
  | 0, s => some ([], s)
  | n + 1, s =>
    match pf s with
    | some (a, s2) => (rCount pf n s2).map (fun p => (a :: p.1, p.2))
    | none => none

/-- Read a `Vec<T>` (`u64` length + items). -/
def rList {α : Type} (pf : List Nat → Option (α × List Nat)) (s : List Nat) :
    Option (List α × List Nat) :=
  match rU64 s with
  | some (n, s2) => rCount pf n s2
  | none => none

/-- Read a plain enum's `u32` variant index. -/
def rMessageType (s : List Nat) : Option (MessageType × List Nat) :=
  match rU32 s with
  | some (n, s2) =>
    if n = 0 then some (.prekey, s2)
    else if n = 1 then some (.normal, s2)
    else if n = 2 then some (.receipt, s2)
    else if n = 3 then some (.keyUpdate, s2)
    else none
  | none => none

/-- Read a `PrekeyBundleData`. -/
def rBundle (s : List Nat) : Option (PrekeyBundleData × List Nat) :=
  match rBytes s with
  | none => none
  | some (ik, s1) =>
    match rBytes s1 with
    | none => none
    | some (spk, s2) =>
      match rBytes s2 with
      | none => none
      | some (sig, s3) =>
        match rU32 s3 with
        | none => none
        | some (sid, s4) =>
          match rOption rBytes s4 with
          | none => none
          | some (otp, s5) =>
            match rOption rU32 s5 with
            | none => none
            | some (oid, s6) => some (⟨ik, spk, sig, sid, otp, oid⟩, s6)

/-- Read a `OneTimePrekey`. -/
def rOtp (s : List Nat) : Option (OneTimePrekeyUpload × List Nat) :=
  match rU32 s with
  | none => none
  | some (i, s1) =>
    match rBytes s1 with
    | none => none
    | some (k, s2) => some (⟨i, k⟩, s2)

end Wire

namespace Wire

/-- `decode_client_message` (bincode 1.x, which allows trailing bytes):
read the `u32` variant tag, then the payload fields. -/
def bincodeDecodeClient (s : List Nat) : Option ClientMessage :=
  match rU32 s with
  | none => none
  | some (tag, s1) =>
    if tag = 0 then
      match rUuid s1 with
      | none => none
      | some (r, s2) =>
        match rUuid s2 with
        | none => none
        | some (c, s3) =>
          match rBytes s3 with
          | none => none
          | some (ct, s4) =>
            match rMessageType s4 with
            | none => none
            | some (mt, _) => some (.sendMessage r c ct mt)
    else if tag = 1 then
      match rUuid s1 with
      | none => none
      | some (u, _) => some (.getPrekeyBundle u)
    else if tag = 2 then
      match rBundle s1 with
      | none => none
      | some (b, _) => some (.uploadPrekeyBundle b)
    else if tag = 3 then
      match rList rOtp s1 with
      | none => none
      | some (ps, _) => some (.uploadOneTimePrekeys ps)
    else if tag = 4 then
      match rList rUuid s1 with
      | none => none
      | some (ids, _) => some (.ackMessages ids)
    else if tag = 5 then some .ping
    else if tag = 6 then
      match rList rUuid s1 with
      | none => none
      | some (us, _) => some (.subscribePresence us)
    else if tag = 7 then
      match rUuid s1 with
      | none => none
      | some (r, s2) =>
        match rUuid s2 with
        | none => none
        | some (c, _) => some (.typingStart r c)
    else if tag = 8 then
      match rUuid s1 with
      | none => none
      | some (r, s2) =>
        match rUuid s2 with
        | none => none
        | some (c, _) => some (.typingStop r c)
    else if tag = 9 then
      match rUuid s1 with
      | none => none
      | some (mid, s2) =>
        match rUuid s2 with
        | none => none
        | some (c, s3) =>
          match rStr s3 with
          | none => none
          | some (e, _) => some (.addReaction mid c e)
    else if tag = 10 then
      match rUuid s1 with
      | none => none
      | some (mid, s2) =>
        match rUuid s2 with
        | none => none
        | some (c, s3) =>
          match rStr s3 with
          | none => none
          | some (e, _) => some (.removeReaction mid c e)
    else if tag = 11 then
      match rUuid s1 with
      | none => none
      | some (c, s2) =>
        match rList rUuid s2 with
        | none => none
        | some (ids, _) => some (.markRead c ids)
    else none

theorem rBytes_bBytes (bs : List Nat)
    (h : bs.length < 18446744073709551616) (rest : List Nat) :
    rBytes (bBytes bs ++ rest) = some (bs, rest) := by
  simp only [rBytes, bBytes, List.append_assoc]
  rw [rU64_w64 _ h]
  try dsimp only
  rw [rChunk_append]

theorem rUuid_bUuid (u : Uuid) (h : wfUuid u = true) (rest : List Nat) :
    rUuid (bUuid u ++ rest) = some (u, rest) := by
  simp only [wfUuid, Bool.and_eq_true, decide_eq_true_eq] at h
  simp only [rUuid]
  rw [show bUuid u = bBytes u from rfl, rBytes_bBytes u (by omega) rest]
  try dsimp only
  rw [if_pos h.1]

theorem rStr_bStr (s : List Nat) (h : wfStr s = true) (rest : List Nat) :
    rStr (bStr s ++ rest) = some (s, rest) := by
  simp only [wfStr, Bool.and_eq_true, decide_eq_true_eq] at h
  simp only [rStr]
  rw [show bStr s = bBytes (utf8Encode s) from rfl,
    rBytes_bBytes (utf8Encode s) h.2 rest]
  try dsimp only
  rw [utf8Decode_encode s h.1]

theorem rOption_bOption_none {α : Type}
    (pf : List Nat → Option (α × List Nat)) (f : α → List Nat) (rest : List Nat) :
    rOption pf (bOption f none ++ rest) = some (none, rest) := by
  simp [bOption, rOption]

theorem rOption_bOption_some {α : Type}
    (pf : List Nat → Option (α × List Nat)) (f : α → List Nat) (a : α)
    (rest : List Nat) (hf : pf (f a ++ rest) = some (a, rest)) :
    rOption pf (bOption f (some a) ++ rest) = some (some a, rest) := by
  simp [bOption, rOption, hf]

theorem rCount_items {α : Type} (pf : List Nat → Option (α × List Nat))
    (f : α → List Nat) (l : List α) (rest : List Nat)
    (hf : ∀ a ∈ l, ∀ r : List Nat, pf (f a ++ r) = some (a, r)) :
    rCount pf l.length ((l.map f).flatten ++ rest) = some (l, rest) := by
  induction l with
  | nil => rfl
  | cons a l ih =>
    simp only [List.map_cons, List.flatten_cons, List.length_cons, List.append_assoc]
    unfold rCount
    rw [hf a (List.mem_cons_self a l) ((l.map f).flatten ++ rest)]
    try dsimp only
    rw [ih (fun x hx r => hf x (List.mem_cons_of_mem a hx) r)]
    rfl

theorem rList_bList {α : Type} (pf : List Nat → Option (α × List Nat))
    (f : α → List Nat) (l : List α) (rest : List Nat)
    (hlen : l.length < 18446744073709551616)
    (hf : ∀ a ∈ l, ∀ r : List Nat, pf (f a ++ r) = some (a, r)) :
    rList pf (bList f l ++ rest) = some (l, rest) := by
  simp only [rList, bList, List.append_assoc]
  rw [rU64_w64 _ hlen]
  try dsimp only
  exact rCount_items pf f l rest hf

theorem rMessageType_bMessageType (mt : MessageType) (rest : List Nat) :
    rMessageType (bMessageType mt ++ rest) = some (mt, rest) := by
  cases mt <;>
    (simp only [bMessageType, rMessageType]
     rw [rU32_w32 _ (by norm_num)]
     norm_num)

theorem rBundle_bBundle (b : PrekeyBundleData) (h : wfBundle b = true)
    (rest : List Nat) :
    rBundle (bBundle b ++ rest) = some (b, rest) := by
  simp only [wfBundle, Bool.and_eq_true] at h
  obtain ⟨⟨⟨⟨⟨hik, hspk⟩, hsig⟩, hsid⟩, hotp⟩, hoid⟩ := h
  simp only [wfBytes, Bool.and_eq_true, decide_eq_true_eq] at hik hspk hsig
  simp only [wfU32, decide_eq_true_eq] at hsid
  simp only [bBundle, rBundle, List.append_assoc]
  rw [rBytes_bBytes _ hik.2]
  try dsimp only
  rw [rBytes_bBytes _ hspk.2]
  try dsimp only
  rw [rBytes_bBytes _ hsig.2]
  try dsimp only
  rw [rU32_w32 _ hsid]
  try dsimp only
  cases hbo : b.oneTimePrekey with
  | none =>
    rw [rOption_bOption_none]
    try dsimp only
    cases hbi : b.oneTimePrekeyId with
    | none =>
      rw [rOption_bOption_none]
      try dsimp only
      rw [← hbo, ← hbi]
    | some i =>
      rw [hbi] at hoid
      try dsimp only at hoid
      simp only [wfU32, decide_eq_true_eq] at hoid
      rw [rOption_bOption_some _ _ _ _ (rU32_w32 i hoid rest)]
      try dsimp only
      rw [← hbo, ← hbi]
  | some k =>
    rw [hbo] at hotp
    try dsimp only at hotp
    simp only [wfBytes, Bool.and_eq_true, decide_eq_true_eq] at hotp
    rw [rOption_bOption_some _ _ _ _ (rBytes_bBytes k hotp.2 _)]
    try dsimp only
    cases hbi : b.oneTimePrekeyId with
    | none =>
      rw [rOption_bOption_none]
      try dsimp only
      rw [← hbo, ← hbi]
    | some i =>
      rw [hbi] at hoid
      try dsimp only at hoid
      simp only [wfU32, decide_eq_true_eq] at hoid
      rw [rOption_bOption_some _ _ _ _ (rU32_w32 i hoid rest)]
      try dsimp only
      rw [← hbo, ← hbi]

theorem rOtp_bOtp (p : OneTimePrekeyUpload) (h : wfOtp p = true)
    (rest : List Nat) :
    rOtp (bOtp p ++ rest) = some (p, rest) := by
  simp only [wfOtp, Bool.and_eq_true, wfU32, wfBytes, decide_eq_true_eq] at h
  simp only [bOtp, rOtp, List.append_assoc]
  rw [rU32_w32 _ h.1]
  try dsimp only
  rw [rBytes_bBytes _ h.2.2]

end Wire

namespace Wire

theorem bincodeDecode_encode_rest (m : ClientMessage) (hm : wfClient m = true)
    (rest : List Nat) :
    bincodeDecodeClient (bincodeEncodeClient m ++ rest) = some m := by
  cases m with
  | sendMessage r c ct mt =>
    simp only [wfClient, Bool.and_eq_true] at hm
    obtain ⟨⟨hr, hc⟩, hct⟩ := hm
    have hct2 : ct.length < 18446744073709551616 := by
      simp only [wfBytes, Bool.and_eq_true, decide_eq_true_eq] at hct
      exact hct.2
    simp only [bincodeEncodeClient, List.append_assoc]
    unfold bincodeDecodeClient
    rw [rU32_w32 0 (by norm_num)]
    norm_num
    rw [rUuid_bUuid r hr]
    try dsimp only
    rw [rUuid_bUuid c hc]
    try dsimp only
    rw [rBytes_bBytes ct hct2]
    try dsimp only
    rw [rMessageType_bMessageType mt]
  | getPrekeyBundle u =>
    simp only [wfClient] at hm
    simp only [bincodeEncodeClient, List.append_assoc]
    unfold bincodeDecodeClient
    rw [rU32_w32 1 (by norm_num)]
    norm_num
    rw [rUuid_bUuid u hm]
  | uploadPrekeyBundle b =>
    simp only [wfClient] at hm
    simp only [bincodeEncodeClient, List.append_assoc]
    unfold bincodeDecodeClient
    rw [rU32_w32 2 (by norm_num)]
    norm_num
    rw [rBundle_bBundle b hm]
  | uploadOneTimePrekeys ps =>
    simp only [wfClient, wfList, Bool.and_eq_true, decide_eq_true_eq,
      List.all_eq_true] at hm
    simp only [bincodeEncodeClient, List.append_assoc]
    unfold bincodeDecodeClient
    rw [rU32_w32 3 (by norm_num)]
    norm_num
    rw [rList_bList rOtp bOtp ps rest hm.2 (fun a ha r => rOtp_bOtp a (hm.1 a ha) r)]
  | ackMessages ids =>
    simp only [wfClient, wfList, Bool.and_eq_true, decide_eq_true_eq,
      List.all_eq_true] at hm
    simp only [bincodeEncodeClient, List.append_assoc]
    unfold bincodeDecodeClient
    rw [rU32_w32 4 (by norm_num)]
    norm_num
    rw [rList_bList rUuid bUuid ids rest hm.2 (fun a ha r => rUuid_bUuid a (hm.1 a ha) r)]
  | ping =>
    simp only [bincodeEncodeClient]
    unfold bincodeDecodeClient
    rw [rU32_w32 5 (by norm_num)]
    norm_num
  | subscribePresence us =>
    simp only [wfClient, wfList, Bool.and_eq_true, decide_eq_true_eq,
      List.all_eq_true] at hm
    simp only [bincodeEncodeClient, List.append_assoc]
    unfold bincodeDecodeClient
    rw [rU32_w32 6 (by norm_num)]
    norm_num
    rw [rList_bList rUuid bUuid us rest hm.2 (fun a ha r => rUuid_bUuid a (hm.1 a ha) r)]
  | typingStart r c =>
    simp only [wfClient, Bool.and_eq_true] at hm
    simp only [bincodeEncodeClient, List.append_assoc]
    unfold bincodeDecodeClient
    rw [rU32_w32 7 (by norm_num)]
    norm_num
    rw [rUuid_bUuid r hm.1]
    try dsimp only
    rw [rUuid_bUuid c hm.2]
  | typingStop r c =>
    simp only [wfClient, Bool.and_eq_true] at hm
    simp only [bincodeEncodeClient, List.append_assoc]
    unfold bincodeDecodeClient
    rw [rU32_w32 8 (by norm_num)]
    norm_num
    rw [rUuid_bUuid r hm.1]
    try dsimp only
    rw [rUuid_bUuid c hm.2]
  | addReaction mid c e =>
    simp only [wfClient, Bool.and_eq_true] at hm
    simp only [bincodeEncodeClient, List.append_assoc]
    unfold bincodeDecodeClient
    rw [rU32_w32 9 (by norm_num)]
    norm_num
    rw [rUuid_bUuid mid hm.1.1]
    try dsimp only
    rw [rUuid_bUuid c hm.1.2]
    try dsimp only
    rw [rStr_bStr e hm.2]
  | removeReaction mid c e =>
    simp only [wfClient, Bool.and_eq_true] at hm
    simp only [bincodeEncodeClient, List.append_assoc]
    unfold bincodeDecodeClient
    rw [rU32_w32 10 (by norm_num)]
    norm_num
    rw [rUuid_bUuid mid hm.1.1]
    try dsimp only
    rw [rUuid_bUuid c hm.1.2]
    try dsimp only
    rw [rStr_bStr e hm.2]
  | markRead c ids =>
    simp only [wfClient, Bool.and_eq_true] at hm
    have hids := hm.2
    simp only [wfList, Bool.and_eq_true, decide_eq_true_eq, List.all_eq_true] at hids
    simp only [bincodeEncodeClient, List.append_assoc]
    unfold bincodeDecodeClient
    rw [rU32_w32 11 (by norm_num)]
    norm_num
    rw [rUuid_bUuid c hm.1]
    try dsimp only
    rw [rList_bList rUuid bUuid ids rest hids.2
      (fun a ha r => rUuid_bUuid a (hids.1 a ha) r)]

theorem bincodeDecode_encode (m : ClientMessage) (hm : wfClient m = true) :
    bincodeDecodeClient (bincodeEncodeClient m) = some m := by
  have := bincodeDecode_encode_rest m hm []
  rwa [List.append_nil] at this

end Wire

namespace Wire

/-- Scalars of a Lean string literal (used for fixed JSON tokens). -/
def sl (s : String) : List Nat := s.data.map Char.toNat

/-- JSON string value: quoted, escaped body. -/
def jStr (s : List Nat) : List Nat := 34 :: (escStr s ++ [34])

/-- JSON rendering of a UUID: the `uuid` crate's hyphenated lowercase hex. -/
def uuidHex (u : Uuid) : List Nat :=
  hexCat (u.take 4) ++ 45 :: (hexCat ((u.drop 4).take 2) ++
    45 :: (hexCat ((u.drop 6).take 2) ++ 45 :: (hexCat ((u.drop 8).take 2) ++
      45 :: hexCat (u.drop 10))))

/-- JSON UUID value (quoted hyphenated hex). -/
def jUuid (u : Uuid) : List Nat := 34 :: (uuidHex u ++ [34])

/-- Comma-join rendered array items. -/
def joinComma : List (List Nat) → List Nat
  | [] => []
  | [x] => x
  | x :: xs => x ++ 44 :: joinComma xs

/-- JSON array value. -/
def jArr (items : List (List Nat)) : List Nat := 91 :: (joinComma items ++ [93])

/-- JSON `Vec<u8>` value: array of decimal numbers. -/
def jBytesArr (bs : List Nat) : List Nat := jArr (bs.map printNat)

/-- JSON unit-variant value: the quoted variant name. -/
def jName (n : List Nat) : List Nat := 34 :: (n ++ [34])

/-- JSON `MessageType` value (externally tagged unit variant: its name). -/
def jMessageType : MessageType → List Nat
  | .prekey => jName (sl ("Prekey"))
  | .normal => jName (sl ("Normal"))
  | .receipt => jName (sl ("Receipt"))
  | .keyUpdate => jName (sl ("KeyUpdate"))

/-- JSON `Option` value: `null` or the payload value. -/
def jOption (f : α → List Nat) : Option α → List Nat
  | none => sl ("null")
  | some x => f x

/-- JSON `PrekeyBundleData` object. -/
def jBundle (b : PrekeyBundleData) : List Nat :=
  123 :: (sl ("\"identity_key\":") ++ jBytesArr b.identityKey ++
    sl (",\"signed_prekey\":") ++ jBytesArr b.signedPrekey ++
    sl (",\"signed_prekey_signature\":") ++ jBytesArr b.signedPrekeySignature ++
    sl (",\"signed_prekey_id\":") ++ printNat b.signedPrekeyId ++
    sl (",\"one_time_prekey\":") ++ jOption jBytesArr b.oneTimePrekey ++
    sl (",\"one_time_prekey_id\":") ++ jOption printNat b.oneTimePrekeyId ++ [125])

/-- JSON `OneTimePrekey` object. -/
def jOtp (p : OneTimePrekeyUpload) : List Nat :=
  123 :: (sl ("\"id\":") ++ printNat p.id ++ sl (",\"key\":") ++ jBytesArr p.key ++
    [125])

/-- The scalar text of `serde_json`'s adjacently-tagged compact encoding of a
`ClientFrame`: an envelope object with the variant name under `"type"` and
the payload fields (in declaration order) under `"payload"`; unit variants
carry no payload member. -/
def jsonTextClient : ClientMessage → List Nat
  | .sendMessage r c ct mt =>
    123 :: (sl ("\"type\":\"") ++ sl ("SendMessage") ++ (34 : Nat) :: sl (",\"payload\":") ++
      (123 :: (sl ("\"recipient_id\":") ++ jUuid r ++
        sl (",\"conversation_id\":") ++ jUuid c ++
        sl (",\"ciphertext\":") ++ jBytesArr ct ++
        sl (",\"message_type\":") ++ jMessageType mt ++ [125])) ++ [125])
  | .getPrekeyBundle u =>
    123 :: (sl ("\"type\":\"") ++ sl ("GetPrekeyBundle") ++ (34 : Nat) :: sl (",\"payload\":") ++
      (123 :: (sl ("\"user_id\":") ++ jUuid u ++ [125])) ++ [125])
  | .uploadPrekeyBundle b =>
    123 :: (sl ("\"type\":\"") ++ sl ("UploadPrekeyBundle") ++ (34 : Nat) :: sl (",\"payload\":") ++
      (123 :: (sl ("\"bundle\":") ++ jBundle b ++ [125])) ++ [125])
  | .uploadOneTimePrekeys ps =>
    123 :: (sl ("\"type\":\"") ++ sl ("UploadOneTimePrekeys") ++ (34 : Nat) :: sl (",\"payload\":") ++
      (123 :: (sl ("\"prekeys\":") ++ jArr (ps.map jOtp) ++ [125])) ++ [125])
  | .ackMessages ids =>
    123 :: (sl ("\"type\":\"") ++ sl ("AckMessages") ++ (34 : Nat) :: sl (",\"payload\":") ++
      (123 :: (sl ("\"message_ids\":") ++ jArr (ids.map jUuid) ++ [125])) ++ [125])
  | .ping => 123 :: (sl ("\"type\":\"") ++ sl ("Ping") ++ (34 : Nat) :: [125])
  | .subscribePresence us =>
    123 :: (sl ("\"type\":\"") ++ sl ("SubscribePresence") ++ (34 : Nat) :: sl (",\"payload\":") ++
      (123 :: (sl ("\"user_ids\":") ++ jArr (us.map jUuid) ++ [125])) ++ [125])
  | .typingStart r c =>
    123 :: (sl ("\"type\":\"") ++ sl ("TypingStart") ++ (34 : Nat) :: sl (",\"payload\":") ++
      (123 :: (sl ("\"recipient_id\":") ++ jUuid r ++
        sl (",\"conversation_id\":") ++ jUuid c ++ [125])) ++ [125])
  | .typingStop r c =>
    123 :: (sl ("\"type\":\"") ++ sl ("TypingStop") ++ (34 : Nat) :: sl (",\"payload\":") ++
      (123 :: (sl ("\"recipient_id\":") ++ jUuid r ++
        sl (",\"conversation_id\":") ++ jUuid c ++ [125])) ++ [125])
  | .addReaction mid c e =>
    123 :: (sl ("\"type\":\"") ++ sl ("AddReaction") ++ (34 : Nat) :: sl (",\"payload\":") ++
      (123 :: (sl ("\"message_id\":") ++ jUuid mid ++
        sl (",\"conversation_id\":") ++ jUuid c ++
        sl (",\"emoji\":") ++ jStr e ++ [125])) ++ [125])
  | .removeReaction mid c e =>
    123 :: (sl ("\"type\":\"") ++ sl ("RemoveReaction") ++ (34 : Nat) :: sl (",\"payload\":") ++
      (123 :: (sl ("\"message_id\":") ++ jUuid mid ++
        sl (",\"conversation_id\":") ++ jUuid c ++
        sl (",\"emoji\":") ++ jStr e ++ [125])) ++ [125])
  | .markRead c ids =>
    123 :: (sl ("\"type\":\"") ++ sl ("MarkRead") ++ (34 : Nat) :: sl (",\"payload\":") ++
      (123 :: (sl ("\"conversation_id\":") ++ jUuid c ++
        sl (",\"message_ids\":") ++ jArr (ids.map jUuid) ++ [125])) ++ [125])

end Wire

namespace Wire

/-- Read an unescaped name up to the closing quote. -/
def pName : List Nat → Option (List Nat × List Nat)
  | [] => none
  | c :: rest =>
    if c = 34 then some ([], rest)
    else
      match pName rest with
      | some (n, r) => some (c :: n, r)
      | none => none

/-- Parse a quoted hyphenated-hex UUID value. -/
def pUuid (t : List Nat) : Option (Uuid × List Nat) :=
  match pByte 34 t with
  | none => none
  | some t0 =>
    match pHexBytes 4 t0 with
    | none => none
    | some (g1, t1) =>
      match pByte 45 t1 with
      | none => none
      | some t1' =>
        match pHexBytes 2 t1' with
        | none => none
        | some (g2, t2) =>
          match pByte 45 t2 with
          | none => none
          | some t2' =>
            match pHexBytes 2 t2' with
            | none => none
            | some (g3, t3) =>
              match pByte 45 t3 with
              | none => none
              | some t3' =>
                match pHexBytes 2 t3' with
                | none => none
                | some (g4, t4) =>
                  match pByte 45 t4 with
                  | none => none
                  | some t4' =>
                    match pHexBytes 6 t4' with
                    | none => none
                    | some (g5, t5) =>
                      match pByte 34 t5 with
                      | none => none
                      | some t6 => some (g1 ++ g2 ++ g3 ++ g4 ++ g5, t6)

/-- Parse a quoted JSON string value. -/
def pStr (t : List Nat) : Option (List Nat × List Nat) :=
  match pByte 34 t with
  | none => none
  | some t0 => pStrBody t0

/-- Parse comma-separated array items after `[`, with fuel. -/
def pCommaSep {α : Type} (pf : List Nat → Option (α × List Nat)) :
    Nat → List Nat → Option (List α × List Nat)
  | 0, _ => none
  | fuel + 1, t =>
    match pf t with
    | none => none
    | some (a, t1) =>
      match t1 with
      | 44 :: t2 => (pCommaSep pf fuel t2).map (fun p => (a :: p.1, p.2))
      | 93 :: t2 => some ([a], t2)
      | _ => none

/-- Parse a JSON array value. -/
def pArr {α : Type} (pf : List Nat → Option (α × List Nat)) (t : List Nat) :
    Option (List α × List Nat) :=
  match pByte 91 t with
  | none => none
  | some t1 =>
    match t1 with
    | 93 :: t2 => some (([] : List α), t2)
    | _ => pCommaSep pf t1.length t1

/-- Parse a quoted unit-variant name into a `MessageType`. -/
def pMessageType (t : List Nat) : Option (MessageType × List Nat) :=
  match pByte 34 t with
  | none => none
  | some t0 =>
    match pName t0 with
    | none => none
    | some (n, t1) =>
      if n = sl ("Prekey") then some (.prekey, t1)
      else if n = sl ("Normal") then some (.normal, t1)
      else if n = sl ("Receipt") then some (.receipt, t1)
      else if n = sl ("KeyUpdate") then some (.keyUpdate, t1)
      else none

/-- Parse `null` or a payload value. -/
def pOption {α : Type} (pf : List Nat → Option (α × List Nat)) (t : List Nat) :
    Option (Option α × List Nat) :=
  if t.take 4 = sl ("null") then some (none, t.drop 4)
  else
    match pf t with
    | some (x, t1) => some (some x, t1)
    | none => none

/-- Parse a `PrekeyBundleData` object. -/
def pBundle (t : List Nat) : Option (PrekeyBundleData × List Nat) :=
  match pByte 123 t with
  | none => none
  | some t0 =>
    match pLit (sl ("\"identity_key\":")) t0 with
    | none => none
    | some t1 =>
      match pArr pNat t1 with
      | none => none
      | some (ik, t2) =>
        match pLit (sl (",\"signed_prekey\":")) t2 with
        | none => none
        | some t3 =>
          match pArr pNat t3 with
          | none => none
          | some (spk, t4) =>
            match pLit (sl (",\"signed_prekey_signature\":")) t4 with
            | none => none
            | some t5 =>
              match pArr pNat t5 with
              | none => none
              | some (sig, t6) =>
                match pLit (sl (",\"signed_prekey_id\":")) t6 with
                | none => none
                | some t7 =>
                  match pNat t7 with
                  | none => none
                  | some (sid, t8) =>
                    match pLit (sl (",\"one_time_prekey\":")) t8 with
                    | none => none
                    | some t9 =>
                      match pOption (pArr pNat) t9 with
                      | none => none
                      | some (otp, t10) =>
                        match pLit (sl (",\"one_time_prekey_id\":")) t10 with
                        | none => none
                        | some t11 =>
                          match pOption pNat t11 with
                          | none => none
                          | some (oid, t12) =>
                            match pByte 125 t12 with
                            | none => none
                            | some t13 => some (⟨ik, spk, sig, sid, otp, oid⟩, t13)

/-- Parse a `OneTimePrekey` object. -/
def pOtp (t : List Nat) : Option (OneTimePrekeyUpload × List Nat) :=
  match pByte 123 t with
  | none => none
  | some t0 =>
    match pLit (sl ("\"id\":")) t0 with
    | none => none
    | some t1 =>
      match pNat t1 with
      | none => none
      | some (i, t2) =>
        match pLit (sl (",\"key\":")) t2 with
        | none => none
        | some t3 =>
          match pArr pNat t3 with
          | none => none
          | some (k, t4) =>
            match pByte 125 t4 with
            | none => none
            | some t5 => some (⟨i, k⟩, t5)

end Wire

namespace Wire

/-- Succeed only at end of input (`serde_json::from_str` rejects trailing
content). -/
def finishWith (m : ClientMessage) : List Nat → Option ClientMessage
  | [] => some m
  | _ :: _ => none

/-- Parse the payload object of a two-UUID frame (`recipient_id`,
`conversation_id`) and the closing braces. -/
def pTwoUuidTail (mk : Uuid → Uuid → ClientMessage) (t : List Nat) :
    Option ClientMessage :=
  match pLit (sl (",\"payload\":")) t with
  | none => none
  | some t4 =>
    match pByte 123 t4 with
    | none => none
    | some t5 =>
      match pLit (sl ("\"recipient_id\":")) t5 with
      | none => none
      | some t6 =>
        match pUuid t6 with
        | none => none
        | some (r, t7) =>
          match pLit (sl (",\"conversation_id\":")) t7 with
          | none => none
          | some t8 =>
            match pUuid t8 with
            | none => none
            | some (c, t9) =>
              match pByte 125 t9 with
              | none => none
              | some t10 =>
                match pByte 125 t10 with
                | none => none
                | some t11 => finishWith (mk r c) t11

/-- Parse the payload of a reaction frame (`message_id`, `conversation_id`,
`emoji`) and the closing braces. -/
def pReactionTail (mk : Uuid → Uuid → List Nat → ClientMessage) (t : List Nat) :
    Option ClientMessage :=
  match pLit (sl (",\"payload\":")) t with
  | none => none
  | some t4 =>
    match pByte 123 t4 with
    | none => none
    | some t5 =>
      match pLit (sl ("\"message_id\":")) t5 with
      | none => none
      | some t6 =>
        match pUuid t6 with
        | none => none
        | some (mid, t7) =>
          match pLit (sl (",\"conversation_id\":")) t7 with
          | none => none
          | some t8 =>
            match pUuid t8 with
            | none => none
            | some (c, t9) =>
              match pLit (sl (",\"emoji\":")) t9 with
              | none => none
              | some t10 =>
                match pStr t10 with
                | none => none
                | some (e, t11) =>
                  match pByte 125 t11 with
                  | none => none
                  | some t12 =>
                    match pByte 125 t12 with
                    | none => none
                    | some t13 => finishWith (mk mid c e) t13

/-- Parse a single-member payload object whose member is a UUID-list array. -/
def pUuidListTail (key : List Nat) (mk : List Uuid → ClientMessage)
    (t : List Nat) : Option ClientMessage :=
  match pLit (sl (",\"payload\":")) t with
  | none => none
  | some t4 =>
    match pByte 123 t4 with
    | none => none
    | some t5 =>
      match pLit key t5 with
      | none => none
      | some t6 =>
        match pArr pUuid t6 with
        | none => none
        | some (ids, t7) =>
          match pByte 125 t7 with
          | none => none
          | some t8 =>
            match pByte 125 t8 with
            | none => none
            | some t9 => finishWith (mk ids) t9

/-- `json::decode_client_message` on the canonical compact text this
development emits: `serde_json`'s parser restricted to that canonical form
(every non-canonical input is rejected rather than accepted differently). -/
def jsonDecodeClient (t : List Nat) : Option ClientMessage :=
  match pByte 123 t with
  | none => none
  | some t1 =>
    match pLit (sl ("\"type\":\"")) t1 with
    | none => none
    | some t2 =>
      match pName t2 with
      | none => none
      | some (name, t3) =>
        if name = sl ("SendMessage") then
          match pLit (sl (",\"payload\":")) t3 with
          | none => none
          | some t4 =>
            match pByte 123 t4 with
            | none => none
            | some t5 =>
              match pLit (sl ("\"recipient_id\":")) t5 with
              | none => none
              | some t6 =>
                match pUuid t6 with
                | none => none
                | some (r, t7) =>
                  match pLit (sl (",\"conversation_id\":")) t7 with
                  | none => none
                  | some t8 =>
                    match pUuid t8 with
                    | none => none
                    | some (c, t9) =>
                      match pLit (sl (",\"ciphertext\":")) t9 with
                      | none => none
                      | some t10 =>
                        match pArr pNat t10 with
                        | none => none
                        | some (ct, t11) =>
                          match pLit (sl (",\"message_type\":")) t11 with
                          | none => none
                          | some t12 =>
                            match pMessageType t12 with
                            | none => none
                            | some (mt, t13) =>
                              match pByte 125 t13 with
                              | none => none
                              | some t14 =>
                                match pByte 125 t14 with
                                | none => none
                                | some t15 =>
                                  finishWith (.sendMessage r c ct mt) t15
        else if name = sl ("GetPrekeyBundle") then
          match pLit (sl (",\"payload\":")) t3 with
          | none => none
          | some t4 =>
            match pByte 123 t4 with
            | none => none
            | some t5 =>
              match pLit (sl ("\"user_id\":")) t5 with
              | none => none
              | some t6 =>
                match pUuid t6 with
                | none => none
                | some (u, t7) =>
                  match pByte 125 t7 with
                  | none => none
                  | some t8 =>
                    match pByte 125 t8 with
                    | none => none
                    | some t9 => finishWith (.getPrekeyBundle u) t9
        else if name = sl ("UploadPrekeyBundle") then
          match pLit (sl (",\"payload\":")) t3 with
          | none => none
          | some t4 =>
            match pByte 123 t4 with
            | none => none
            | some t5 =>
              match pLit (sl ("\"bundle\":")) t5 with
              | none => none
              | some t6 =>
                match pBundle t6 with
                | none => none
                | some (b, t7) =>
                  match pByte 125 t7 with
                  | none => none
                  | some t8 =>
                    match pByte 125 t8 with
                    | none => none
                    | some t9 => finishWith (.uploadPrekeyBundle b) t9
        else if name = sl ("UploadOneTimePrekeys") then
          match pLit (sl (",\"payload\":")) t3 with
          | none => none
          | some t4 =>
            match pByte 123 t4 with
            | none => none
            | some t5 =>
              match pLit (sl ("\"prekeys\":")) t5 with
              | none => none
              | some t6 =>
                match pArr pOtp t6 with
                | none => none
                | some (ps, t7) =>
                  match pByte 125 t7 with
                  | none => none
                  | some t8 =>
                    match pByte 125 t8 with
                    | none => none
                    | some t9 => finishWith (.uploadOneTimePrekeys ps) t9
        else if name = sl ("AckMessages") then
          pUuidListTail (sl ("\"message_ids\":")) .ackMessages t3
        else if name = sl ("Ping") then
          match pByte 125 t3 with
          | none => none
          | some t4 => finishWith .ping t4
        else if name = sl ("SubscribePresence") then
          pUuidListTail (sl ("\"user_ids\":")) .subscribePresence t3
        else if name = sl ("TypingStart") then
          pTwoUuidTail .typingStart t3
        else if name = sl ("TypingStop") then
          pTwoUuidTail .typingStop t3
        else if name = sl ("AddReaction") then
          pReactionTail .addReaction t3
        else if name = sl ("RemoveReaction") then
          pReactionTail .removeReaction t3
        else if name = sl ("MarkRead") then
          match pLit (sl (",\"payload\":")) t3 with
          | none => none
          | some t4 =>
            match pByte 123 t4 with
            | none => none
            | some t5 =>
              match pLit (sl ("\"conversation_id\":")) t5 with
              | none => none
              | some t6 =>
                match pUuid t6 with
                | none => none
                | some (c, t7) =>
                  match pLit (sl (",\"message_ids\":")) t7 with
                  | none => none
                  | some t8 =>
                    match pArr pUuid t8 with
                    | none => none
                    | some (ids, t9) =>
                      match pByte 125 t9 with
                      | none => none
                      | some t10 =>
                        match pByte 125 t10 with
                        | none => none
                        | some t11 => finishWith (.markRead c ids) t11
        else none

end Wire

namespace Wire

theorem pName_append (name : List Nat)
    (h : name.all (fun c => decide (c ≠ 34)) = true) (rest : List Nat) :
    pName (name ++ (34 : Nat) :: rest) = some (name, rest) := by
  induction name with
  | nil =>
    simp only [List.nil_append]
    unfold pName
    rw [if_pos rfl]
  | cons c n ih =>
    simp only [List.all_cons, Bool.and_eq_true, decide_eq_true_eq] at h
    simp only [List.cons_append]
    unfold pName
    rw [if_neg h.1, ih h.2]

theorem pHexBytes_hexCat_n (n : Nat) (bs : List Nat) (hn : bs.length = n)
    (hb : bs.all (fun x => decide (x < 256)) = true) (rest : List Nat) :
    pHexBytes n (hexCat bs ++ rest) = some (bs, rest) := by
  subst hn
  exact pHexBytes_hexCat bs hb rest

theorem pUuid_jUuid (u : Uuid) (hu : wfUuid u = true) (rest : List Nat) :
    pUuid (jUuid u ++ rest) = some (u, rest) := by
  simp only [wfUuid, Bool.and_eq_true, decide_eq_true_eq] at hu
  obtain ⟨hlen, hall⟩ := hu
  have hallP : ∀ x ∈ u, x < 256 := by
    intro x hx
    have := List.all_eq_true.mp hall x hx
    simpa using this
  have hsub : ∀ (l : List Nat), (∀ x ∈ l, x ∈ u) →
      l.all (fun x => decide (x < 256)) = true := by
    intro l hl
    rw [List.all_eq_true]
    intro x hx
    simpa using hallP x (hl x hx)
  simp only [jUuid, uuidHex, List.cons_append, List.append_assoc]
  unfold pUuid
  rw [pByte_cons]
  try dsimp only
  rw [pHexBytes_hexCat_n 4 (u.take 4) (by simp [List.length_take, hlen])
    (hsub _ (fun x hx => List.mem_of_mem_take hx))]
  try dsimp only
  rw [pByte_cons]
  try dsimp only
  rw [pHexBytes_hexCat_n 2 ((u.drop 4).take 2)
    (by simp [List.length_take, List.length_drop, hlen])
    (hsub _ (fun x hx => List.mem_of_mem_drop (List.mem_of_mem_take hx)))]
  try dsimp only
  rw [pByte_cons]
  try dsimp only
  rw [pHexBytes_hexCat_n 2 ((u.drop 6).take 2)
    (by simp [List.length_take, List.length_drop, hlen])
    (hsub _ (fun x hx => List.mem_of_mem_drop (List.mem_of_mem_take hx)))]
  try dsimp only
  rw [pByte_cons]
  try dsimp only
  rw [pHexBytes_hexCat_n 2 ((u.drop 8).take 2)
    (by simp [List.length_take, List.length_drop, hlen])
    (hsub _ (fun x hx => List.mem_of_mem_drop (List.mem_of_mem_take hx)))]
  try dsimp only
  rw [pByte_cons]
  try dsimp only
  rw [pHexBytes_hexCat_n 6 (u.drop 10) (by simp [List.length_drop, hlen])
    (hsub _ (fun x hx => List.mem_of_mem_drop hx))]
  try dsimp only
  rw [pByte_cons]
  try dsimp only
  have e1 : (u.drop 8).take 2 ++ u.drop 10 = u.drop 8 := by
    have : u.drop 10 = (u.drop 8).drop 2 := by
      rw [List.drop_drop]
    rw [this]
    exact List.take_append_drop 2 (u.drop 8)
  have e2 : (u.drop 6).take 2 ++ u.drop 8 = u.drop 6 := by
    have : u.drop 8 = (u.drop 6).drop 2 := by
      rw [List.drop_drop]
    rw [this]
    exact List.take_append_drop 2 (u.drop 6)
  have e3 : (u.drop 4).take 2 ++ u.drop 6 = u.drop 4 := by
    have : u.drop 6 = (u.drop 4).drop 2 := by
      rw [List.drop_drop]
    rw [this]
    exact List.take_append_drop 2 (u.drop 4)
  have e4 : u.take 4 ++ u.drop 4 = u := List.take_append_drop 4 u
  simp only [List.append_assoc, e1, e2, e3, e4]
  simp

theorem pStr_jStr (s : List Nat) (h : s.all scalarOk = true) (rest : List Nat) :
    pStr (jStr s ++ rest) = some (s, rest) := by
  simp only [jStr, pStr, List.cons_append, List.append_assoc, List.singleton_append]
  rw [pByte_cons]
  try dsimp only
  exact pStrBody_escStr s h rest

theorem printNat_cons (n : Nat) :
    ∃ b t, printNat n = b :: t ∧ isDigit b = true := by
  cases h : printNat n with
  | nil => exact absurd h (printNat_ne_nil n)
  | cons b t =>
    refine ⟨b, t, rfl, ?_⟩
    have := printNat_digits n
    rw [h] at this
    simp only [List.all_cons, Bool.and_eq_true] at this
    exact this.1

theorem pMessageType_jMessageType (mt : MessageType) (rest : List Nat) :
    pMessageType (jMessageType mt ++ rest) = some (mt, rest) := by
  cases mt with
  | prekey =>
    simp only [jMessageType, jName, List.cons_append, List.append_assoc,
      List.singleton_append]
    unfold pMessageType
    rw [pByte_cons]
    try dsimp only
    rw [pName_append _ (by decide)]
    try dsimp only
    rw [if_pos rfl]
    simp
  | normal =>
    simp only [jMessageType, jName, List.cons_append, List.append_assoc,
      List.singleton_append]
    unfold pMessageType
    rw [pByte_cons]
    try dsimp only
    rw [pName_append _ (by decide)]
    try dsimp only
    rw [if_neg (by decide), if_pos rfl]
    simp
  | receipt =>
    simp only [jMessageType, jName, List.cons_append, List.append_assoc,
      List.singleton_append]
    unfold pMessageType
    rw [pByte_cons]
    try dsimp only
    rw [pName_append _ (by decide)]
    try dsimp only
    rw [if_neg (by decide), if_neg (by decide), if_pos rfl]
    simp
  | keyUpdate =>
    simp only [jMessageType, jName, List.cons_append, List.append_assoc,
      List.singleton_append]
    unfold pMessageType
    rw [pByte_cons]
    try dsimp only
    rw [pName_append _ (by decide)]
    try dsimp only
    rw [if_neg (by decide), if_neg (by decide), if_neg (by decide), if_pos rfl]
    simp

theorem pOption_none {α : Type} (pf : List Nat → Option (α × List Nat))
    (f : α → List Nat) (rest : List Nat) :
    pOption pf (jOption f none ++ rest) = some (none, rest) := by
  simp only [jOption, pOption]
  rw [List.take_left' (by decide), if_pos rfl, List.drop_left' (by decide)]

theorem pOption_some {α : Type} (pf : List Nat → Option (α × List Nat))
    (f : α → List Nat) (x : α) (rest : List Nat)
    (hf : pf (f x ++ rest) = some (x, rest)) (b : Nat) (tail : List Nat)
    (hfx : f x = b :: tail) (hb : b ≠ 110) :
    pOption pf (jOption f (some x) ++ rest) = some (some x, rest) := by
  simp only [jOption, pOption]
  rw [if_neg ?hne]
  · rw [hf]
  case hne =>
    rw [hfx]
    intro heq
    have hnull : sl ("null") = [110, 117, 108, 108] := by decide
    rw [hnull] at heq
    simp only [List.cons_append, List.take_succ_cons, List.cons.injEq] at heq
    exact hb heq.1

theorem joinComma_length (items : List (List Nat)) (h : ∀ x ∈ items, x ≠ []) :
    items.length ≤ (joinComma items).length + 1 := by
  induction items with
  | nil => simp [joinComma]
  | cons x xs ih =>
    cases xs with
    | nil =>
      have hx := h x (List.mem_cons_self x [])
      cases hxc : x with
      | nil => exact absurd hxc hx
      | cons b t => simp [joinComma, hxc]
    | cons y ys =>
      have hx := h x (List.mem_cons_self x (y :: ys))
      have hys := ih (fun z hz => h z (List.mem_cons_of_mem x hz))
      have hxlen : 1 ≤ x.length := by
        cases hxc : x with
        | nil => exact absurd hxc hx
        | cons b t => simp [hxc]
      rw [show joinComma (x :: y :: ys) = x ++ 44 :: joinComma (y :: ys) from rfl]
      simp only [List.length_cons, List.length_append] at hys ⊢
      omega

theorem pCommaSep_items {α : Type} (pf : List Nat → Option (α × List Nat))
    (f : α → List Nat) :
    ∀ (l : List α) (rest : List Nat) (fuel : Nat), l ≠ [] → l.length ≤ fuel →
    (∀ a ∈ l, ∀ r : List Nat, pf (f a ++ 44 :: r) = some (a, 44 :: r)) →
    (∀ a ∈ l, ∀ r : List Nat, pf (f a ++ 93 :: r) = some (a, 93 :: r)) →
    pCommaSep pf fuel (joinComma (l.map f) ++ 93 :: rest) = some (l, rest) := by
  intro l
  induction l with
  | nil => intro rest fuel hne; exact absurd rfl hne
  | cons a l ih =>
    intro rest fuel _ hfuel hf44 hf93
    cases fuel with
    | zero => simp at hfuel
    | succ fu =>
      cases l with
      | nil =>
        simp only [List.map_cons, List.map_nil, joinComma]
        unfold pCommaSep
        rw [hf93 a (List.mem_cons_self a []) rest]
        try rfl
      | cons a2 l2 =>
        simp only [List.map_cons, joinComma, List.append_assoc, List.cons_append]
        unfold pCommaSep
        rw [show f a ++ 44 :: (joinComma (f a2 :: l2.map f) ++ 93 :: rest) =
          f a ++ 44 :: (joinComma ((a2 :: l2).map f) ++ 93 :: rest) from by
            simp [List.map_cons]]
        rw [hf44 a (List.mem_cons_self a (a2 :: l2))
          (joinComma ((a2 :: l2).map f) ++ 93 :: rest)]
        try dsimp only
        rw [ih rest fu (by simp) (by simp at hfuel ⊢; omega)
          (fun x hx r => hf44 x (List.mem_cons_of_mem a hx) r)
          (fun x hx r => hf93 x (List.mem_cons_of_mem a hx) r)]
        try rfl

theorem pArr_items {α : Type} (pf : List Nat → Option (α × List Nat))
    (f : α → List Nat) (l : List α) (rest : List Nat)
    (hf44 : ∀ a ∈ l, ∀ r : List Nat, pf (f a ++ 44 :: r) = some (a, 44 :: r))
    (hf93 : ∀ a ∈ l, ∀ r : List Nat, pf (f a ++ 93 :: r) = some (a, 93 :: r))
    (hhead : ∀ a ∈ l, ∃ b t, f a = b :: t ∧ b ≠ 93) :
    pArr pf (jArr (l.map f) ++ rest) = some (l, rest) := by
  cases l with
  | nil =>
    simp only [List.map_nil, jArr, joinComma, List.cons_append, List.nil_append]
    unfold pArr
    rw [pByte_cons]
  | cons a l =>
    obtain ⟨b, t, hfa, hb⟩ := hhead a (List.mem_cons_self a l)
    simp only [jArr, List.cons_append, List.append_assoc]
    unfold pArr
    rw [pByte_cons]
    try dsimp only
    have hjc : ∃ jtail, joinComma ((a :: l).map f) = b :: jtail := by
      cases l with
      | nil => exact ⟨t, by simp [joinComma, hfa]⟩
      | cons a2 l2 =>
        refine ⟨t ++ 44 :: joinComma ((a2 :: l2).map f), ?_⟩
        simp [joinComma, hfa, List.map_cons]
    obtain ⟨jtail, hjc⟩ := hjc
    have hfuel : (a :: l).length ≤ (joinComma ((a :: l).map f) ++ 93 :: rest).length := by
      have hnn : ∀ x ∈ (a :: l).map f, x ≠ [] := by
        intro x hx
        obtain ⟨a', ha', hax⟩ := List.mem_map.mp hx
        obtain ⟨b', t', hfa', _⟩ := hhead a' ha'
        rw [← hax, hfa']
        simp
      have := joinComma_length ((a :: l).map f) hnn
      simp only [List.length_map, List.length_cons] at this
      simp only [List.length_append, List.length_cons]
      omega
    have hcs := pCommaSep_items pf f (a :: l) rest
      (joinComma ((a :: l).map f) ++ 93 :: rest).length (by simp) hfuel hf44 hf93
    rw [hjc] at hcs ⊢
    simp only [List.cons_append] at hcs ⊢
    split
    · rename_i t2 heq
      exfalso
      rw [List.cons.injEq] at heq
      exact hb heq.1
    · exact hcs

end Wire

namespace Wire

theorem pNat_before44 (n : Nat) (t : List Nat) (r : List Nat) :
    pNat (printNat n ++ ((44 : Nat) :: t ++ r)) = some (n, (44 : Nat) :: t ++ r) := by
  exact pNat_printNat n _ (by exact (by decide : isDigit 44 = false))

theorem pArr_jBytesArr (bs : List Nat) (rest : List Nat) :
    pArr pNat (jBytesArr bs ++ rest) = some (bs, rest) := by
  have h44 : ∀ a ∈ bs, ∀ r : List Nat,
      pNat (printNat a ++ 44 :: r) = some (a, 44 :: r) :=
    fun a _ r => pNat_printNat a _ (by exact (by decide : isDigit 44 = false))
  have h93 : ∀ a ∈ bs, ∀ r : List Nat,
      pNat (printNat a ++ 93 :: r) = some (a, 93 :: r) :=
    fun a _ r => pNat_printNat a _ (by exact (by decide : isDigit 93 = false))
  have hh : ∀ a ∈ bs, ∃ b t, printNat a = b :: t ∧ b ≠ 93 := by
    intro a _
    obtain ⟨b, t, hbt, hd⟩ := printNat_cons a
    refine ⟨b, t, hbt, ?_⟩
    simp only [isDigit, Bool.and_eq_true, decide_eq_true_eq] at hd
    omega
  have := pArr_items pNat printNat bs rest h44 h93 hh
  simpa [jBytesArr] using this

theorem pArr_jUuidList (ids : List Uuid) (h : ∀ a ∈ ids, wfUuid a = true)
    (rest : List Nat) :
    pArr pUuid (jArr (ids.map jUuid) ++ rest) = some (ids, rest) :=
  pArr_items pUuid jUuid ids rest
    (fun a ha r => pUuid_jUuid a (h a ha) (44 :: r))
    (fun a ha r => pUuid_jUuid a (h a ha) (93 :: r))
    (fun a _ => ⟨34, uuidHex a ++ [34], rfl, by omega⟩)

theorem pOption_printNat_some (i : Nat) (R : List Nat) (hR : headNotDigit R) :
    pOption pNat (jOption printNat (some i) ++ R) = some (some i, R) := by
  obtain ⟨b, t, hbt, hd⟩ := printNat_cons i
  refine pOption_some pNat printNat i R (pNat_printNat i R hR) b t hbt ?_
  simp only [isDigit, Bool.and_eq_true, decide_eq_true_eq] at hd
  omega

theorem pOption_jBytesArr_some (k : List Nat) (R : List Nat) :
    pOption (pArr pNat) (jOption jBytesArr (some k) ++ R) = some (some k, R) :=
  pOption_some (pArr pNat) jBytesArr k R (pArr_jBytesArr k R) 91
    (joinComma (k.map printNat) ++ [93]) rfl (by omega)

theorem pOtp_jOtp (p : OneTimePrekeyUpload) (rest : List Nat) :
    pOtp (jOtp p ++ rest) = some (p, rest) := by
  simp only [jOtp, List.cons_append, List.append_assoc]
  unfold pOtp
  rw [pByte_cons]
  try dsimp only
  rw [pLit_append]
  try dsimp only
  rw [pNat_printNat p.id _ (by
    rw [show sl (",\"key\":") = (44 : Nat) :: sl ("\"key\":") from by decide]
    exact (by decide : isDigit 44 = false))]
  try dsimp only
  rw [pLit_append]
  try dsimp only
  rw [pArr_jBytesArr]
  try dsimp only
  rw [pByte_cons]
  simp

theorem pBundle_jBundle (b : PrekeyBundleData) (rest : List Nat) :
    pBundle (jBundle b ++ rest) = some (b, rest) := by
  simp only [jBundle, List.cons_append, List.append_assoc]
  unfold pBundle
  rw [pByte_cons]
  try dsimp only
  rw [pLit_append]
  try dsimp only
  rw [pArr_jBytesArr]
  try dsimp only
  rw [pLit_append]
  try dsimp only
  rw [pArr_jBytesArr]
  try dsimp only
  rw [pLit_append]
  try dsimp only
  rw [pArr_jBytesArr]
  try dsimp only
  rw [pLit_append]
  try dsimp only
  rw [pNat_printNat b.signedPrekeyId _ (by
    rw [show sl (",\"one_time_prekey\":") =
      (44 : Nat) :: sl ("\"one_time_prekey\":") from by decide]
    exact (by decide : isDigit 44 = false))]
  try dsimp only
  rw [pLit_append]
  try dsimp only
  cases hbo : b.oneTimePrekey with
  | none =>
    rw [pOption_none]
    try dsimp only
    rw [pLit_append]
    try dsimp only
    cases hbi : b.oneTimePrekeyId with
    | none =>
      rw [pOption_none]
      try dsimp only
      rw [pByte_cons]
      try dsimp only
      rw [← hbo, ← hbi]
      simp
    | some i =>
      rw [pOption_printNat_some i ((125 : Nat) :: ([] ++ rest))
        (by exact (by decide : isDigit 125 = false))]
      try dsimp only
      rw [pByte_cons]
      try dsimp only
      rw [← hbo, ← hbi]
      simp
  | some k =>
    rw [pOption_jBytesArr_some]
    try dsimp only
    rw [pLit_append]
    try dsimp only
    cases hbi : b.oneTimePrekeyId with
    | none =>
      rw [pOption_none]
      try dsimp only
      rw [pByte_cons]
      try dsimp only
      rw [← hbo, ← hbi]
      simp
    | some i =>
      rw [pOption_printNat_some i ((125 : Nat) :: ([] ++ rest))
        (by exact (by decide : isDigit 125 = false))]
      try dsimp only
      rw [pByte_cons]
      try dsimp only
      rw [← hbo, ← hbi]
      simp

end Wire

namespace Wire

theorem pArr_jOtpList (ps : List OneTimePrekeyUpload) (rest : List Nat) :
    pArr pOtp (jArr (ps.map jOtp) ++ rest) = some (ps, rest) :=
  pArr_items pOtp jOtp ps rest (fun a _ r => pOtp_jOtp a _)
    (fun a _ r => pOtp_jOtp a _)
    (fun a _ => ⟨123, sl ("\"id\":") ++ printNat a.id ++ sl (",\"key\":") ++
      jBytesArr a.key ++ [125], rfl, by omega⟩)

theorem jsonDecode_jsonText (m : ClientMessage) (hm : wfClient m = true) :
    jsonDecodeClient (jsonTextClient m) = some m := by
  cases m with
  | sendMessage r c ct mt =>
    simp only [wfClient, Bool.and_eq_true] at hm
    simp only [jsonTextClient, List.cons_append, List.append_assoc]
    unfold jsonDecodeClient
    rw [pByte_cons]
    try dsimp only
    rw [pLit_append]
    try dsimp only
    rw [pName_append _ (by decide)]
    try dsimp only
    rw [if_pos rfl]
    rw [pLit_append]
    try dsimp only
    rw [pByte_cons]
    try dsimp only
    rw [pLit_append]
    try dsimp only
    rw [pUuid_jUuid r hm.1.1]
    try dsimp only
    rw [pLit_append]
    try dsimp only
    rw [pUuid_jUuid c hm.1.2]
    try dsimp only
    rw [pLit_append]
    try dsimp only
    rw [pArr_jBytesArr]
    try dsimp only
    rw [pLit_append]
    try dsimp only
    rw [pMessageType_jMessageType]
    try dsimp only
    rw [pByte_cons]
    try dsimp only
    simp [pByte, finishWith]
  | getPrekeyBundle u =>
    simp only [wfClient] at hm
    simp only [jsonTextClient, List.cons_append, List.append_assoc]
    unfold jsonDecodeClient
    rw [pByte_cons]
    try dsimp only
    rw [pLit_append]
    try dsimp only
    rw [pName_append _ (by decide)]
    try dsimp only
    rw [if_neg (by decide), if_pos rfl]
    rw [pLit_append]
    try dsimp only
    rw [pByte_cons]
    try dsimp only
    rw [pLit_append]
    try dsimp only
    rw [pUuid_jUuid u hm]
    try dsimp only
    rw [pByte_cons]
    try dsimp only
    simp [pByte, finishWith]
  | uploadPrekeyBundle b =>
    simp only [jsonTextClient, List.cons_append, List.append_assoc]
    unfold jsonDecodeClient
    rw [pByte_cons]
    try dsimp only
    rw [pLit_append]
    try dsimp only
    rw [pName_append _ (by decide)]
    try dsimp only
    rw [if_neg (by decide), if_neg (by decide), if_pos rfl]
    rw [pLit_append]
    try dsimp only
    rw [pByte_cons]
    try dsimp only
    rw [pLit_append]
    try dsimp only
    rw [pBundle_jBundle]
    try dsimp only
    rw [pByte_cons]
    try dsimp only
    simp [pByte, finishWith]
  | uploadOneTimePrekeys ps =>
    simp only [jsonTextClient, List.cons_append, List.append_assoc]
    unfold jsonDecodeClient
    rw [pByte_cons]
    try dsimp only
    rw [pLit_append]
    try dsimp only
    rw [pName_append _ (by decide)]
    try dsimp only
    rw [if_neg (by decide), if_neg (by decide), if_neg (by decide), if_pos rfl]
    rw [pLit_append]
    try dsimp only
    rw [pByte_cons]
    try dsimp only
    rw [pLit_append]
    try dsimp only
    rw [pArr_jOtpList]
    try dsimp only
    rw [pByte_cons]
    try dsimp only
    simp [pByte, finishWith]
  | ackMessages ids =>
    simp only [wfClient, wfList, Bool.and_eq_true, List.all_eq_true] at hm
    simp only [jsonTextClient, List.cons_append, List.append_assoc]
    unfold jsonDecodeClient
    rw [pByte_cons]
    try dsimp only
    rw [pLit_append]
    try dsimp only
    rw [pName_append _ (by decide)]
    try dsimp only
    rw [if_neg (by decide), if_neg (by decide), if_neg (by decide),
      if_neg (by decide), if_pos rfl]
    unfold pUuidListTail
    rw [pLit_append]
    try dsimp only
    rw [pByte_cons]
    try dsimp only
    rw [pLit_append]
    try dsimp only
    rw [pArr_jUuidList ids hm.1]
    try dsimp only
    rw [pByte_cons]
    try dsimp only
    simp [pByte, finishWith]
  | ping =>
    simp only [jsonTextClient, List.cons_append, List.append_assoc]
    unfold jsonDecodeClient
    rw [pByte_cons]
    try dsimp only
    rw [pLit_append]
    try dsimp only
    rw [pName_append _ (by decide)]
    try dsimp only
    rw [if_neg (by decide), if_neg (by decide), if_neg (by decide),
      if_neg (by decide), if_neg (by decide), if_pos rfl]
    simp [pByte, finishWith]
  | subscribePresence us =>
    simp only [wfClient, wfList, Bool.and_eq_true, List.all_eq_true] at hm
    simp only [jsonTextClient, List.cons_append, List.append_assoc]
    unfold jsonDecodeClient
    rw [pByte_cons]
    try dsimp only
    rw [pLit_append]
    try dsimp only
    rw [pName_append _ (by decide)]
    try dsimp only
    rw [if_neg (by decide), if_neg (by decide), if_neg (by decide),
      if_neg (by decide), if_neg (by decide), if_neg (by decide), if_pos rfl]
    unfold pUuidListTail
    rw [pLit_append]
    try dsimp only
    rw [pByte_cons]
    try dsimp only
    rw [pLit_append]
    try dsimp only
    rw [pArr_jUuidList us hm.1]
    try dsimp only
    rw [pByte_cons]
    try dsimp only
    simp [pByte, finishWith]
  | typingStart r c =>
    simp only [wfClient, Bool.and_eq_true] at hm
    simp only [jsonTextClient, List.cons_append, List.append_assoc]
    unfold jsonDecodeClient
    rw [pByte_cons]
    try dsimp only
    rw [pLit_append]
    try dsimp only
    rw [pName_append _ (by decide)]
    try dsimp only
    rw [if_neg (by decide), if_neg (by decide), if_neg (by decide),
      if_neg (by decide), if_neg (by decide), if_neg (by decide),
      if_neg (by decide), if_pos rfl]
    unfold pTwoUuidTail
    rw [pLit_append]
    try dsimp only
    rw [pByte_cons]
    try dsimp only
    rw [pLit_append]
    try dsimp only
    rw [pUuid_jUuid r hm.1]
    try dsimp only
    rw [pLit_append]
    try dsimp only
    rw [pUuid_jUuid c hm.2]
    try dsimp only
    rw [pByte_cons]
    try dsimp only
    simp [pByte, finishWith]
  | typingStop r c =>
    simp only [wfClient, Bool.and_eq_true] at hm
    simp only [jsonTextClient, List.cons_append, List.append_assoc]
    unfold jsonDecodeClient
    rw [pByte_cons]
    try dsimp only
    rw [pLit_append]
    try dsimp only
    rw [pName_append _ (by decide)]
    try dsimp only
    rw [if_neg (by decide), if_neg (by decide), if_neg (by decide),
      if_neg (by decide), if_neg (by decide), if_neg (by decide),
      if_neg (by decide), if_neg (by decide), if_pos rfl]
    unfold pTwoUuidTail
    rw [pLit_append]
    try dsimp only
    rw [pByte_cons]
    try dsimp only
    rw [pLit_append]
    try dsimp only
    rw [pUuid_jUuid r hm.1]
    try dsimp only
    rw [pLit_append]
    try dsimp only
    rw [pUuid_jUuid c hm.2]
    try dsimp only
    rw [pByte_cons]
    try dsimp only
    simp [pByte, finishWith]
  | addReaction mid c e =>
    simp only [wfClient, Bool.and_eq_true] at hm
    have hes : e.all scalarOk = true := by
      have := hm.2
      simp only [wfStr, Bool.and_eq_true] at this
      exact this.1
    simp only [jsonTextClient, List.cons_append, List.append_assoc]
    unfold jsonDecodeClient
    rw [pByte_cons]
    try dsimp only
    rw [pLit_append]
    try dsimp only
    rw [pName_append _ (by decide)]
    try dsimp only
    rw [if_neg (by decide), if_neg (by decide), if_neg (by decide),
      if_neg (by decide), if_neg (by decide), if_neg (by decide),
      if_neg (by decide), if_neg (by decide), if_neg (by decide), if_pos rfl]
    unfold pReactionTail
    rw [pLit_append]
    try dsimp only
    rw [pByte_cons]
    try dsimp only
    rw [pLit_append]
    try dsimp only
    rw [pUuid_jUuid mid hm.1.1]
    try dsimp only
    rw [pLit_append]
    try dsimp only
    rw [pUuid_jUuid c hm.1.2]
    try dsimp only
    rw [pLit_append]
    try dsimp only
    rw [pStr_jStr e hes]
    try dsimp only
    rw [pByte_cons]
    try dsimp only
    simp [pByte, finishWith]
  | removeReaction mid c e =>
    simp only [wfClient, Bool.and_eq_true] at hm
    have hes : e.all scalarOk = true := by
      have := hm.2
      simp only [wfStr, Bool.and_eq_true] at this
      exact this.1
    simp only [jsonTextClient, List.cons_append, List.append_assoc]
    unfold jsonDecodeClient
    rw [pByte_cons]
    try dsimp only
    rw [pLit_append]
    try dsimp only
    rw [pName_append _ (by decide)]
    try dsimp only
    rw [if_neg (by decide), if_neg (by decide), if_neg (by decide),
      if_neg (by decide), if_neg (by decide), if_neg (by decide),
      if_neg (by decide), if_neg (by decide), if_neg (by decide),
      if_neg (by decide), if_pos rfl]
    unfold pReactionTail
    rw [pLit_append]
    try dsimp only
    rw [pByte_cons]
    try dsimp only
    rw [pLit_append]
    try dsimp only
    rw [pUuid_jUuid mid hm.1.1]
    try dsimp only
    rw [pLit_append]
    try dsimp only
    rw [pUuid_jUuid c hm.1.2]
    try dsimp only
    rw [pLit_append]
    try dsimp only
    rw [pStr_jStr e hes]
    try dsimp only
    rw [pByte_cons]
    try dsimp only
    simp [pByte, finishWith]
  | markRead c ids =>
    simp only [wfClient, Bool.and_eq_true] at hm
    have hids : ∀ a ∈ ids, wfUuid a = true := by
      have := hm.2
      simp only [wfList, Bool.and_eq_true, List.all_eq_true] at this
      exact this.1
    simp only [jsonTextClient, List.cons_append, List.append_assoc]
    unfold jsonDecodeClient
    rw [pByte_cons]
    try dsimp only
    rw [pLit_append]
    try dsimp only
    rw [pName_append _ (by decide)]
    try dsimp only
    rw [if_neg (by decide), if_neg (by decide), if_neg (by decide),
      if_neg (by decide), if_neg (by decide), if_neg (by decide),
      if_neg (by decide), if_neg (by decide), if_neg (by decide),
      if_neg (by decide), if_neg (by decide), if_pos rfl]
    rw [pLit_append]
    try dsimp only
    rw [pByte_cons]
    try dsimp only
    rw [pLit_append]
    try dsimp only
    rw [pUuid_jUuid c hm.1]
    try dsimp only
    rw [pLit_append]
    try dsimp only
    rw [pArr_jUuidList ids hids]
    try dsimp only
    rw [pByte_cons]
    try dsimp only
    simp [pByte, finishWith]

end Wire

namespace Wire

theorem scalarOk_of_isDigit (c : Nat) (h : isDigit c = true) : scalarOk c = true := by
  simp only [isDigit, Bool.and_eq_true, decide_eq_true_eq] at h
  simp only [scalarOk, Bool.or_eq_true, Bool.and_eq_true, decide_eq_true_eq]
  omega

theorem allOk_printNat (n : Nat) : (printNat n).all scalarOk = true := by
  rw [List.all_eq_true]
  intro c hc
  exact scalarOk_of_isDigit c (List.all_eq_true.mp (printNat_digits n) c hc)

theorem scalarOk_hexDigit : ∀ d, d < 16 → scalarOk (hexDigit d) = true := by decide

theorem allOk_hexCat (bs : List Nat) (h : ∀ x ∈ bs, x < 256) :
    (hexCat bs).all scalarOk = true := by
  induction bs with
  | nil => rfl
  | cons b t ih =>
    have hb := h b (List.mem_cons_self b t)
    have hrest := ih (fun x hx => h x (List.mem_cons_of_mem b hx))
    simp only [hexCat, List.map_cons, List.flatten_cons, List.all_append, byteHex,
      List.all_cons, List.all_nil, Bool.and_eq_true]
    repeat' apply And.intro
    all_goals first
      | exact scalarOk_hexDigit _ (by omega)
      | (simpa [hexCat] using hrest)
      | trivial
      | decide

theorem allOk_uuidHex (u : Uuid) (hu : wfUuid u = true) :
    (uuidHex u).all scalarOk = true := by
  simp only [wfUuid, Bool.and_eq_true, decide_eq_true_eq] at hu
  have hmem : ∀ x ∈ u, x < 256 := by
    intro x hx
    simpa using List.all_eq_true.mp hu.2 x hx
  simp only [uuidHex, List.all_append, List.all_cons, Bool.and_eq_true]
  refine ⟨allOk_hexCat _ (fun x hx => hmem x (List.mem_of_mem_take hx)), by decide,
    allOk_hexCat _ (fun x hx => hmem x (List.mem_of_mem_drop (List.mem_of_mem_take hx))),
    by decide,
    allOk_hexCat _ (fun x hx => hmem x (List.mem_of_mem_drop (List.mem_of_mem_take hx))),
    by decide,
    allOk_hexCat _ (fun x hx => hmem x (List.mem_of_mem_drop (List.mem_of_mem_take hx))),
    by decide,
    allOk_hexCat _ (fun x hx => hmem x (List.mem_of_mem_drop hx))⟩

theorem allOk_jUuid (u : Uuid) (hu : wfUuid u = true) :
    (jUuid u).all scalarOk = true := by
  simp only [jUuid, List.all_cons, List.all_append, Bool.and_eq_true]
  exact ⟨by decide, allOk_uuidHex u hu, by decide⟩

theorem allOk_escChar (c : Nat) (hc : scalarOk c = true) :
    (escChar c).all scalarOk = true := by
  unfold escChar
  by_cases h34 : c = 34
  · rw [if_pos h34]; decide
  · rw [if_neg h34]
    by_cases h92 : c = 92
    · rw [if_pos h92]; decide
    · rw [if_neg h92]
      by_cases h8 : c = 8
      · rw [if_pos h8]; decide
      · rw [if_neg h8]
        by_cases h9 : c = 9
        · rw [if_pos h9]; decide
        · rw [if_neg h9]
          by_cases h10 : c = 10
          · rw [if_pos h10]; decide
          · rw [if_neg h10]
            by_cases h12 : c = 12
            · rw [if_pos h12]; decide
            · rw [if_neg h12]
              by_cases h13 : c = 13
              · rw [if_pos h13]; decide
              · rw [if_neg h13]
                by_cases hctl : c < 32
                · rw [if_pos hctl]
                  simp only [byteHex, List.cons_append, List.nil_append,
                    List.all_cons, Bool.and_eq_true]
                  refine ⟨by decide, by decide, by decide, by decide,
                    scalarOk_hexDigit _ (by omega), scalarOk_hexDigit _ (by omega), rfl⟩
                · rw [if_neg hctl]
                  simp [hc]

theorem allOk_escStr (s : List Nat) (hs : s.all scalarOk = true) :
    (escStr s).all scalarOk = true := by
  induction s with
  | nil => rfl
  | cons c t ih =>
    simp only [List.all_cons, Bool.and_eq_true] at hs
    simp only [escStr, List.map_cons, List.flatten_cons, List.all_append,
      Bool.and_eq_true]
    exact ⟨allOk_escChar c hs.1, by simpa [escStr] using ih hs.2⟩

theorem allOk_jStr (s : List Nat) (hs : s.all scalarOk = true) :
    (jStr s).all scalarOk = true := by
  simp only [jStr, List.all_cons, List.all_append, Bool.and_eq_true]
  exact ⟨by decide, allOk_escStr s hs, by decide⟩

theorem allOk_joinComma (items : List (List Nat))
    (h : ∀ x ∈ items, x.all scalarOk = true) :
    (joinComma items).all scalarOk = true := by
  induction items with
  | nil => rfl
  | cons x xs ih =>
    cases xs with
    | nil => simpa [joinComma] using h x (List.mem_cons_self x [])
    | cons y ys =>
      rw [show joinComma (x :: y :: ys) = x ++ 44 :: joinComma (y :: ys) from rfl]
      simp only [List.all_append, List.all_cons, Bool.and_eq_true]
      exact ⟨h x (List.mem_cons_self x (y :: ys)), by decide,
        ih (fun z hz => h z (List.mem_cons_of_mem x hz))⟩

theorem allOk_jArr (items : List (List Nat))
    (h : ∀ x ∈ items, x.all scalarOk = true) :
    (jArr items).all scalarOk = true := by
  simp only [jArr, List.all_cons, List.all_append, Bool.and_eq_true]
  exact ⟨by decide, allOk_joinComma items h, by decide⟩

theorem allOk_jBytesArr (bs : List Nat) : (jBytesArr bs).all scalarOk = true := by
  refine allOk_jArr _ ?_
  intro x hx
  obtain ⟨n, _, hnx⟩ := List.mem_map.mp hx
  exact hnx ▸ allOk_printNat n

theorem allOk_jMessageType (mt : MessageType) :
    (jMessageType mt).all scalarOk = true := by
  cases mt <;> decide

theorem allOk_jBundle (b : PrekeyBundleData) : (jBundle b).all scalarOk = true := by
  simp only [jBundle, List.all_cons, List.all_append, Bool.and_eq_true]
  repeat' apply And.intro
  all_goals first
    | decide
    | exact allOk_jBytesArr _
    | exact allOk_printNat _
    | (cases hopt : b.oneTimePrekey with
        | none => decide
        | some k => exact allOk_jBytesArr k)
    | (cases hopt2 : b.oneTimePrekeyId with
        | none => decide
        | some i => exact allOk_printNat i)

theorem allOk_jOtp (p : OneTimePrekeyUpload) : (jOtp p).all scalarOk = true := by
  simp only [jOtp, List.all_cons, List.all_append, Bool.and_eq_true]
  repeat' apply And.intro
  all_goals first
    | decide
    | exact allOk_printNat _
    | exact allOk_jBytesArr _

end Wire

namespace Wire

theorem tOk_jsonText (m : ClientMessage) (hm : wfClient m = true) :
    (jsonTextClient m).all scalarOk = true := by
  cases m with
  | sendMessage r c ct mt =>
    simp only [wfClient, Bool.and_eq_true] at hm
    simp only [jsonTextClient, List.all_cons, List.all_append, Bool.and_eq_true]
    repeat' apply And.intro
    all_goals first
      | decide
      | exact allOk_jUuid _ hm.1.1
      | exact allOk_jUuid _ hm.1.2
      | exact allOk_jBytesArr _
      | exact allOk_jMessageType _
  | getPrekeyBundle u =>
    simp only [wfClient] at hm
    simp only [jsonTextClient, List.all_cons, List.all_append, Bool.and_eq_true]
    repeat' apply And.intro
    all_goals first
      | decide
      | exact allOk_jUuid _ hm
  | uploadPrekeyBundle b =>
    simp only [jsonTextClient, List.all_cons, List.all_append, Bool.and_eq_true]
    repeat' apply And.intro
    all_goals first
      | decide
      | exact allOk_jBundle _
  | uploadOneTimePrekeys ps =>
    simp only [jsonTextClient, List.all_cons, List.all_append, Bool.and_eq_true]
    repeat' apply And.intro
    all_goals first
      | decide
      | (refine allOk_jArr _ ?_
         intro x hx
         obtain ⟨a, _, hax⟩ := List.mem_map.mp hx
         exact hax ▸ allOk_jOtp a)
  | ackMessages ids =>
    simp only [wfClient, wfList, Bool.and_eq_true, List.all_eq_true] at hm
    simp only [jsonTextClient, List.all_cons, List.all_append, Bool.and_eq_true]
    repeat' apply And.intro
    all_goals first
      | decide
      | (refine allOk_jArr _ ?_
         intro x hx
         obtain ⟨a, ha, hax⟩ := List.mem_map.mp hx
         exact hax ▸ allOk_jUuid a (hm.1 a ha))
  | ping => decide
  | subscribePresence us =>
    simp only [wfClient, wfList, Bool.and_eq_true, List.all_eq_true] at hm
    simp only [jsonTextClient, List.all_cons, List.all_append, Bool.and_eq_true]
    repeat' apply And.intro
    all_goals first
      | decide
      | (refine allOk_jArr _ ?_
         intro x hx
         obtain ⟨a, ha, hax⟩ := List.mem_map.mp hx
         exact hax ▸ allOk_jUuid a (hm.1 a ha))
  | typingStart r c =>
    simp only [wfClient, Bool.and_eq_true] at hm
    simp only [jsonTextClient, List.all_cons, List.all_append, Bool.and_eq_true]
    repeat' apply And.intro
    all_goals first
      | decide
      | exact allOk_jUuid _ hm.1
      | exact allOk_jUuid _ hm.2
  | typingStop r c =>
    simp only [wfClient, Bool.and_eq_true] at hm
    simp only [jsonTextClient, List.all_cons, List.all_append, Bool.and_eq_true]
    repeat' apply And.intro
    all_goals first
      | decide
      | exact allOk_jUuid _ hm.1
      | exact allOk_jUuid _ hm.2
  | addReaction mid c e =>
    simp only [wfClient, Bool.and_eq_true, wfStr] at hm
    simp only [jsonTextClient, List.all_cons, List.all_append, Bool.and_eq_true]
    repeat' apply And.intro
    all_goals first
      | decide
      | exact allOk_jUuid _ hm.1.1
      | exact allOk_jUuid _ hm.1.2
      | exact allOk_jStr _ hm.2.1
  | removeReaction mid c e =>
    simp only [wfClient, Bool.and_eq_true, wfStr] at hm
    simp only [jsonTextClient, List.all_cons, List.all_append, Bool.and_eq_true]
    repeat' apply And.intro
    all_goals first
      | decide
      | exact allOk_jUuid _ hm.1.1
      | exact allOk_jUuid _ hm.1.2
      | exact allOk_jStr _ hm.2.1
  | markRead c ids =>
    simp only [wfClient, Bool.and_eq_true] at hm
    have hids := hm.2
    simp only [wfList, Bool.and_eq_true, List.all_eq_true] at hids
    simp only [jsonTextClient, List.all_cons, List.all_append, Bool.and_eq_true]
    repeat' apply And.intro
    all_goals first
      | decide
      | exact allOk_jUuid _ hm.1
      | (refine allOk_jArr _ ?_
         intro x hx
         obtain ⟨a, ha, hax⟩ := List.mem_map.mp hx
         exact hax ▸ allOk_jUuid a (hids.1 a ha))

/-- `json::encode_client_message` followed by `String::into_bytes`: the UTF-8
bytes of the canonical compact JSON text. -/
def jsonEncodeClient (m : ClientMessage) : List Nat :=
  utf8Encode (jsonTextClient m)

/-- The inbound decode step of `handle_message` in `ws/message.rs`: if the
payload is valid UTF-8 it is parsed as text/JSON, otherwise as bincode; a
parse failure propagates as an error (`None`). -/
def handleMessageDecode (data : List Nat) : Option ClientMessage :=
  match utf8Decode data with
  | some text => jsonDecodeClient text
  | none => bincodeDecodeClient data

end Wire

/-- Claim C8 counterexample: the compact binary (bincode) encoding of the
`Ping` frame is the four bytes `[5, 0, 0, 0]` (the `u32` variant index),
which are valid UTF-8; the auto-detection rule therefore routes them to the
JSON parser, which rejects them, so the binary encoding of `Ping` does NOT
decode back to the frame. -/
theorem c8_binary_ping_misrouted :
    Wire.bincodeEncodeClient .ping = [5, 0, 0, 0] ∧
      Wire.utf8Decode (Wire.bincodeEncodeClient .ping) = some [5, 0, 0, 0] ∧
      Wire.handleMessageDecode (Wire.bincodeEncodeClient .ping) = none := by
  decide

/-- Claim C8 (amended): for every well-formed `ClientFrame`, the JSON text
encoding decodes back to the frame under the relay's auto-detection rule; the
compact binary encoding decodes back to the frame only when its bytes are not
valid UTF-8 — binary encodings that happen to be valid UTF-8 (such as
`Ping`'s) are routed to the JSON parser instead and rejected. -/
theorem c8_amended_autodetect_roundtrip (m : Wire.ClientMessage)
    (hm : Wire.wfClient m = true) :
    Wire.handleMessageDecode (Wire.jsonEncodeClient m) = some m ∧
      (Wire.utf8Decode (Wire.bincodeEncodeClient m) = none →
        Wire.handleMessageDecode (Wire.bincodeEncodeClient m) = some m) := by
  constructor
  · unfold Wire.handleMessageDecode Wire.jsonEncodeClient
    rw [Wire.utf8Decode_encode _ (Wire.tOk_jsonText m hm)]
    exact Wire.jsonDecode_jsonText m hm
  · intro hnu
    unfold Wire.handleMessageDecode
    rw [hnu]
    exact Wire.bincodeDecode_encode m hm

namespace Wire

/-- A frame whose bincode bytes contain `0xC0` and are therefore not valid
UTF-8, exercising the binary path of the auto-detection rule. -/
def c8WitnessMsg : ClientMessage :=
  .sendMessage (List.replicate 16 0) (List.replicate 16 0) [192] .normal

end Wire

theorem c8_amended_autodetect_roundtrip_witness :
    (Wire.handleMessageDecode (Wire.jsonEncodeClient Wire.c8WitnessMsg) =
        some Wire.c8WitnessMsg ∧
      (Wire.utf8Decode (Wire.bincodeEncodeClient Wire.c8WitnessMsg) = none →
        Wire.handleMessageDecode (Wire.bincodeEncodeClient Wire.c8WitnessMsg) =
          some Wire.c8WitnessMsg)) ∧
      Wire.utf8Decode (Wire.bincodeEncodeClient Wire.c8WitnessMsg) = none :=
  ⟨c8_amended_autodetect_roundtrip Wire.c8WitnessMsg (by decide), by decide⟩
